import Mathlib

/-!
Verification development for the sensemaker-backend repository.

The TypeScript source is shallowly embedded: JavaScript runtime values are
modelled by the inductive type `JVal`, CSV rows by association lists of
strings, the durable R2 store by an association list of JSON documents, and
the queue consumer by an explicit event trace.  Each embedded definition
mirrors one source function and keeps its name.
-/

set_option autoImplicit false

namespace Sensemaker

/--
Model of a JavaScript runtime value, restricted to the shapes the embedded
functions inspect.  An `obj` carries its own (enumerable, insertion-ordered)
properties plus two facts the source discovers by runtime inspection:
whether the object exposes a callable `getTotalCount` member (class methods
live on the prototype, so they are not listed among `fields`), and whether
its constructor name is `VoteTally`.
-/
inductive JVal where
  | num (n : Int)
  | str (s : String)
  | bool (b : Bool)
  | null
  | undef
  | nan
  | obj (fields : List (String × JVal)) (hasGetTotalFn : Bool) (ctorVoteTally : Bool)
  deriving Repr

/-- JavaScript truthiness: `0`, `""`, `false`, `null`, `undefined`, `NaN` are falsy. -/
def JVal.truthy : JVal → Bool
  | .num n => n != 0
  | .str s => s != ""
  | .bool b => b
  | .null => false
  | .undef => false
  | .nan => false
  | .obj _ _ _ => true

/-- The `typeof x === 'object'` test; in JavaScript `typeof null` is `'object'`. -/
def JVal.isObjTypeof : JVal → Bool
  | .obj _ _ _ => true
  | .null => true
  | _ => false

/-- Nullish values are exactly those skipped by the `??` operator. -/
def JVal.nullish : JVal → Bool
  | .null => true
  | .undef => true
  | _ => false

/-- `typeof v.getTotalCount === 'function'` for our value model. -/
def JVal.hasGetTotalCountFn : JVal → Bool
  | .obj _ fn _ => fn
  | _ => false

/-- `v.constructor?.name === 'VoteTally'` for our value model. -/
def JVal.isVoteTallyCtor : JVal → Bool
  | .obj _ _ ctor => ctor
  | _ => false

/--
Property access `v[k]`.  On objects the first matching own property is
returned, `undefined` when absent; property access on (boxed) primitives
yields `undefined` as well.  The embedded code never dereferences `null` or
`undefined`, so that error case is not needed.
-/
def JVal.getProp : JVal → String → JVal
  | .obj fields _ _, k => ((fields.find? (fun p => p.1 == k)).map (fun p => p.2)).getD .undef
  | _, _ => (.undef)

/-- The `a ?? b` operator. -/
def jsCoalesce (a b : JVal) : JVal := if a.nullish then b else a

/-- The chain `v[k1] ?? v[k2] ?? v[k3] ?? 0` used by both tally normalizers. -/
def pickCount (v : JVal) (k1 k2 k3 : String) : JVal :=
  jsCoalesce (v.getProp k1) (jsCoalesce (v.getProp k2) (jsCoalesce (v.getProp k3) (.num 0)))

/--
Result of `new VoteTally(a, d, p)` from the sensemaking-tools dependency, as
declared in src/sensemaking-tools.d.ts: an object carrying the three counts,
a callable `getTotalCount`, and constructor name `VoteTally`.
-/
def mkVoteTally (a d p : JVal) : JVal :=
  .obj [("agreeCount", a), ("disagreeCount", d), ("passCount", p)] true true

/-- The plain numeric object built by `toVoteTallyForQueue` (no callable members). -/
def mkQueueTally (a d p : JVal) : JVal :=
  .obj [("agreeCount", a), ("disagreeCount", d), ("passCount", p)] false false

/--
Embedding of `toVoteTally` (index with queue support, lines 48-66): falsy
input gives `undefined`; an input already exposing a callable
`getTotalCount` is returned unchanged; otherwise the three counts are read
through the alias chains and a `VoteTally` is constructed.
-/
def toVoteTally (v : JVal) : JVal :=
  if ¬ v.truthy then .undef
  else if v.hasGetTotalCountFn then v
  else
    mkVoteTally (pickCount v "agreeCount" "agrees" "agree")
      (pickCount v "disagreeCount" "disagrees" "disagree")
      (pickCount v "passCount" "passes" "pass")

/--
Embedding of `toVoteTallyForQueue` (lines 69-81): same alias chains, but the
result is a pure data object with no callable members and no
`getTotalCount` presence check on the input.
-/
def toVoteTallyForQueue (v : JVal) : JVal :=
  if ¬ v.truthy then .undef
  else
    mkQueueTally (pickCount v "agreeCount" "agrees" "agree")
      (pickCount v "disagreeCount" "disagrees" "disagree")
      (pickCount v "passCount" "passes" "pass")

/-- String rendering used by JavaScript `+` when one operand is a string. -/
def JVal.jsToString : JVal → String
  | .num n => toString n
  | .str s => s
  | .bool b => if b then "true" else "false"
  | .null => "null"
  | .undef => "undefined"
  | .nan => "NaN"
  | .obj _ _ _ => "[object Object]"

/-- Numeric coercion used by JavaScript `+` (strings excluded; `none` is NaN). -/
def JVal.toNumber? : JVal → Option Int
  | .num n => some n
  | .bool b => some (if b then 1 else 0)
  | .null => some 0
  | _ => none

/-- Operands that make JavaScript `+` concatenate rather than add. -/
def JVal.isStringish : JVal → Bool
  | .str _ => true
  | .obj _ _ _ => true
  | _ => false

/-- JavaScript `+` on our value model: concatenation when either side is string-like, otherwise numeric addition with NaN propagation. -/
def jsAdd (a b : JVal) : JVal :=
  if a.isStringish ∨ b.isStringish then .str (a.jsToString ++ b.jsToString)
  else
    match a.toNumber?, b.toNumber? with
    | some x, some y => .num (x + y)
    | _, _ => .nan

/--
Semantics of the `getTotalCount(includePass)` member carried by the tallies
this code builds: `agree + disagree + (includePass ? pass : 0)`.  This is
the in-repo fallback implementation (index lines 59-64 and
sensemake_openrouter_utils lines 320-331) and the behaviour the
sensemaking-tools declaration documents for the `VoteTally` class.
-/
def getTotalCountSem (t : JVal) (includePass : Bool) : JVal :=
  jsAdd (jsAdd (t.getProp "agreeCount") (t.getProp "disagreeCount"))
    (if includePass then t.getProp "passCount" else .num 0)

/-- The claim-side description of the alias resolution: the first present (non-nullish) field wins, a fully missing count is 0. -/
def firstPresentOrZero (x y z : JVal) : JVal :=
  if ¬ x.nullish then x else if ¬ y.nullish then y else if ¬ z.nullish then z else .num 0

/--
A topic value as built by this repository: `parseTopicsString` supplies an
`id`, the single-column path of `convertToComments` builds `{name,
subtopics}` objects without one, hence the optional `id`.
-/
inductive Topic where
  | node (id : Option String) (name : String) (subtopics : List Topic)
  deriving Repr

/-- The `id` field of a topic. -/
def Topic.id : Topic → Option String
  | .node i _ _ => i

/-- The `name` field of a topic. -/
def Topic.name : Topic → String
  | .node _ n _ => n

/-- The `subtopics` field of a topic. -/
def Topic.subtopics : Topic → List Topic
  | .node _ _ s => s

/--
A canonical comment record.  `id` and `text` are the required fields;
`voteInfo` is a JavaScript value (`undef` when the property is absent);
`metadata` holds the optional `{topics}` object written by
`convertToComments`; `topics` and `extra` stand for any further properties
copied verbatim by the object spreads in the normalizers.
-/
structure Comment where
  id : String := ""
  text : String := ""
  topics : JVal := .undef
  metadata : Option (List Topic) := none
  voteInfo : JVal := .undef
  extra : List (String × JVal) := []
  deriving Repr

/-- The group heuristic of both normalizers: `Object.values(vi).every((x) => typeof x === 'object')`. -/
def isGroupHeur (fields : List (String × JVal)) : Bool :=
  fields.all (fun p => p.2.isObjTypeof)

/--
The loop body of `normalizeCommentsVoteInfo` (index lines 84-108): comments
with falsy `voteInfo` pass through; a value already recognized as a usable
`VoteTally` is kept; a mapping whose values are all objects is normalized
member-wise via `toVoteTally`; any other object is normalized directly.
The source builds the result on a spread copy of the input comment, so only
`voteInfo` ever changes.
-/
def normalizeCommentVoteInfo (c : Comment) : Comment :=
  if ¬ c.voteInfo.truthy then c
  else
    match c.voteInfo with
    | .obj fields fn ctor =>
        if fn ∨ ctor then c
        else if isGroupHeur fields then
          { c with voteInfo := .obj (fields.map (fun p => (p.1, toVoteTally p.2))) false false }
        else { c with voteInfo := toVoteTally c.voteInfo }
    | _ => c

/-- Embedding of `normalizeCommentsVoteInfo` (index lines 83-109). -/
def normalizeCommentsVoteInfo (comments : List Comment) : List Comment :=
  comments.map normalizeCommentVoteInfo

/--
The loop body of `normalizeCommentsForQueue` (index lines 113-138): like the
previous function but every tally is flattened with `toVoteTallyForQueue`,
including values that already are `VoteTally` instances.
-/
def normalizeCommentForQueue (c : Comment) : Comment :=
  if ¬ c.voteInfo.truthy then c
  else
    match c.voteInfo with
    | .obj fields fn ctor =>
        if fn ∨ ctor then { c with voteInfo := toVoteTallyForQueue c.voteInfo }
        else if isGroupHeur fields then
          { c with voteInfo := .obj (fields.map (fun p => (p.1, toVoteTallyForQueue p.2))) false false }
        else { c with voteInfo := toVoteTallyForQueue c.voteInfo }
    | _ => c

/-- Embedding of `normalizeCommentsForQueue` (index lines 112-139). -/
def normalizeCommentsForQueue (comments : List Comment) : List Comment :=
  comments.map normalizeCommentForQueue

/-- The double quote character. -/
def dquoteChar : Char := Char.ofNat 34

/-- The single quote character. -/
def squoteChar : Char := Char.ofNat 39

/--
The JavaScript `split(sep)` for a one-character separator, on character
lists: splitting never yields the empty list, and an input without the
separator comes back whole.
-/
def splitOnChar (sep : Char) : List Char → List (List Char)
  | [] => [[]]
  | x :: rest =>
      let r := splitOnChar sep rest
      if x = sep then [] :: r
      else
        match r with
        | h :: t => (x :: h) :: t
        | [] => [[x]]

/-- Whitespace trimming on character lists (both ends), the `String.prototype.trim` behaviour. -/
def trimChars (l : List Char) : List Char :=
  ((l.dropWhile Char.isWhitespace).reverse.dropWhile Char.isWhitespace).reverse

/-- JavaScript `trim()`. -/
def jsTrim (s : String) : String :=
  String.mk (trimChars s.toList)

/-- JavaScript `toLowerCase()` on the ASCII names this code handles. -/
def jsToLowerStr (s : String) : String :=
  String.mk (s.toList.map Char.toLower)

/-- One application of the regex `/^["']|["']$/g`: drop one leading and one trailing quote character. -/
def stripEdgeQuotes (s : String) : String :=
  let l :=
    match s.toList with
    | c :: rest => if c = dquoteChar ∨ c = squoteChar then rest else c :: rest
    | [] => []
  let l2 :=
    match l.getLast? with
    | some c => if c = dquoteChar ∨ c = squoteChar then l.dropLast else l
    | none => l
  String.mk l2

/-- Replacement of `/\s+/g` by a hyphen: every maximal whitespace run becomes one `-`.  The boolean records whether we are inside a run already replaced. -/
def squashWsToHyphen : List Char → Bool → List Char
  | [], _ => []
  | c :: rest, inRun =>
      if c.isWhitespace then
        if inRun then squashWsToHyphen rest true
        else Char.ofNat 45 :: squashWsToHyphen rest true
      else c :: squashWsToHyphen rest false

/-- The id generator of `parseTopicsString`: lowercase the name and hyphenate whitespace runs. -/
def topicIdOf (name : String) : String :=
  String.mk (squashWsToHyphen (jsToLowerStr name).toList false)

/--
Embedding of `parseTopicsString`
(src/utils/sensemake_openrouter_utils.ts lines 453-471): empty or blank
input gives `[]`; otherwise edge quotes are stripped, the string is split on
commas, parts are trimmed and empty parts dropped, and each remaining part
becomes one flat topic (empty `subtopics`) whose id is the lowercased,
whitespace-hyphenated name.
-/
def parseTopicsString (topicsString : String) : List Topic :=
  if topicsString = "" ∨ jsTrim topicsString = "" then []
  else
    let cleanString := stripEdgeQuotes topicsString
    let topicParts :=
      ((splitOnChar (Char.ofNat 44) cleanString.toList).map
        (fun l => jsTrim (String.mk l))).filter (fun t => t ≠ "")
    topicParts.map (fun topicName => Topic.node (some (topicIdOf topicName)) topicName [])

/-- A parsed CSV row: an insertion-ordered mapping from column name to cell text. -/
abbrev CSVRow := List (String × String)

/-- Read a cell; `none` plays the role of JavaScript `undefined` for a missing column. -/
def getCol (row : CSVRow) (k : String) : Option String :=
  (row.find? (fun p => p.1 == k)).map (fun p => p.2)

/-- Assignment `row[k] = v`: overwrite in place when the column exists, append otherwise. -/
def setCol (row : CSVRow) (k v : String) : CSVRow :=
  if row.any (fun p => p.1 == k) then row.map (fun p => if p.1 == k then (k, v) else p)
  else row ++ [(k, v)]

/-- The `delete row[k]` operation. -/
def removeCol (row : CSVRow) (k : String) : CSVRow :=
  row.filter (fun p => p.1 != k)

/-- `Object.keys(row)`. -/
def rowKeys (row : CSVRow) : List String :=
  row.map (fun p => p.1)

/--
JavaScript `parseInt` on the decimal shapes vote-count cells take: leading
whitespace is skipped, an optional sign is consumed, and the longest decimal
digit prefix is converted; `none` stands for `NaN` (no digits at all).
-/
def parseIntJS (s : String) : Option Int :=
  let cs := s.toList.dropWhile Char.isWhitespace
  let digitsVal := fun (l : List Char) =>
    let ds := l.takeWhile Char.isDigit
    if ds = [] then (none : Option Int)
    else some (Int.ofNat (ds.foldl (fun a c => a * 10 + (c.toNat - 48)) 0))
  match cs with
  | c :: rest =>
      if c = Char.ofNat 45 then (digitsVal rest).map (fun n => -n)
      else if c = Char.ofNat 43 then digitsVal rest
      else digitsVal cs
  | [] => none

/-- `parseInt(x) || 0`: NaN collapses to 0 (and a parsed 0 stays 0). -/
def parseIntOr0 (o : Option String) : Int :=
  match o with
  | some s => (parseIntJS s).getD 0
  | none => 0

/-- Addition where `none` is NaN. -/
def optAdd (a b : Option Int) : Option Int :=
  match a, b with
  | some x, some y => some (x + y)
  | _, _ => none

/-- Rendering of a JavaScript number into a cell string (`NaN` for NaN). -/
def optIntToString (a : Option Int) : String :=
  match a with
  | some n => toString n
  | none => "NaN"

/-- The statistics block computed by `convertCSV_new`. -/
structure CSVStats where
  totalVotes : Option Int
  passesCount : Nat
  votesMin : Option Int
  votesMax : Option Int
  deriving Repr

/-- Outcome of `convertCSV_new`. -/
inductive ConversionResult where
  | err (error : String)
  | ok (rows : List CSVRow) (fieldnames : List String) (stats : CSVStats)
  deriving Repr

/-- The per-row renaming `comment-body` to `comment_text` (assignment first, deletion second). -/
def renameBodyRow (row : CSVRow) : CSVRow :=
  if row.any (fun p => p.1 == "comment-body") then
    removeCol (setCol row "comment_text" ((getCol row "comment-body").getD "")) "comment-body"
  else row

/--
The per-row synthesis of `passes` and `votes`
(csv_converter_new lines 158-179): a moderation value of `1` or `-1` gives
0 passes, `0` or anything else (including a missing cell) gives 1 pass, and
`votes` renders `parseInt(agrees) + parseInt(disagrees) + passes` with NaN
propagation.
-/
def addVotesPasses (row : CSVRow) : CSVRow :=
  let agrees := parseIntJS ((getCol row "agrees").getD "NaN")
  let disagrees := parseIntJS ((getCol row "disagrees").getD "NaN")
  let moderatedVal := getCol row "moderated"
  let passes : Int :=
    if moderatedVal = some "1" then 0
    else if moderatedVal = some "-1" then 0
    else if moderatedVal = some "0" then 1
    else 1
  let row1 := setCol row "passes" (toString passes)
  setCol row1 "votes" (optIntToString (optAdd (optAdd agrees disagrees) (some passes)))

/-- `Math.min` over the votes column (NaN-propagating; the row list is nonempty whenever this is used). -/
def jsMinList (l : List (Option Int)) : Option Int :=
  match l with
  | [] => none
  | x :: rest => rest.foldl (fun acc y =>
      match acc, y with
      | some a, some b => some (min a b)
      | _, _ => none) x

/-- `Math.max` over the votes column (NaN-propagating). -/
def jsMaxList (l : List (Option Int)) : Option Int :=
  match l with
  | [] => none
  | x :: rest => rest.foldl (fun acc y =>
      match acc, y with
      | some a, some b => some (max a b)
      | _, _ => none) x

/--
Embedding of `convertCSV_new` (csv_converter_new lines 104-264): fail on an
empty row list or when `agrees`, `disagrees` or `moderated` is missing from
the first row's columns; else rename `comment-body` to `comment_text`,
synthesize `passes` and `votes` per row, and report the reordered field
names plus vote statistics.
-/
def convertCSV_new (rows : List CSVRow) : ConversionResult :=
  match rows with
  | [] => .err "沒有資料行"
  | first :: _ =>
    let fieldnames := rowKeys first
    let missingColumns := (["agrees", "disagrees", "moderated"].filter
      (fun c => ¬ fieldnames.contains c))
    if missingColumns ≠ [] then
      .err ("缺少必要欄位: " ++ String.intercalate ", " missingColumns)
    else
      let rows1 := if fieldnames.contains "comment-body" then rows.map renameBodyRow else rows
      let rows2 := rows1.map addVotesPasses
      let passesCount := (rows2.filter (fun r => getCol r "passes" == some "1")).length
      let uf1 := if fieldnames.contains "votes" then fieldnames else fieldnames ++ ["votes"]
      let uf2 := if uf1.contains "passes" then uf1 else uf1 ++ ["passes"]
      let updatedFieldnames :=
        if fieldnames.contains "comment-body" ∧ ¬ uf2.contains "comment_text" then
          uf2 ++ ["comment_text"]
        else uf2
      let votesValues := rows2.map (fun r => parseIntJS ((getCol r "votes").getD "NaN"))
      let totalVotes := optAdd (votesValues.foldl optAdd (some 0)) (some (Int.ofNat passesCount))
      let newFieldnames := ["timestamp", "datetime", "comment-id", "author-id",
        "agrees", "disagrees", "passes", "votes", "moderated", "comment_text"]
      let preferred := newFieldnames.filter (fun c => updatedFieldnames.contains c)
      let finalFieldnames := preferred ++ updatedFieldnames.filter (fun c => ¬ preferred.contains c)
      .ok rows2 finalFieldnames
        ⟨totalVotes, passesCount, jsMinList votesValues, jsMaxList votesValues⟩

/-- The three outcomes of CSV format detection. -/
inductive CSVFormat where
  | polis
  | complete
  | unknown
  deriving DecidableEq, Repr

/--
Embedding of `detectCSVFormat`
(src/utils/sensemake_openrouter_utils.ts lines 107-140): `complete` has
priority, then the four-column pol.is test, then the `comment-body`-only
pol.is variant test, else `unknown`.  The row argument is accepted and
ignored exactly as in the source.
-/
def detectCSVFormat (headers : List String) (rows : List CSVRow) : CSVFormat :=
  if ["comment-id", "comment_text", "agrees", "disagrees", "passes"].all
      (fun c => headers.contains c) then .complete
  else if ["comment-id", "agrees", "disagrees", "comment-body"].all
      (fun c => headers.contains c) then .polis
  else if headers.contains "comment-body" then .polis
  else .unknown

/-- Helper for substring search: does `pat` occur in the character list? -/
def containsSubList (pat : List Char) : List Char → Bool
  | [] => pat.isEmpty
  | c :: rest => pat.isPrefixOf (c :: rest) || containsSubList pat rest

/-- Substring containment, the `String.prototype.includes` test. -/
def containsSub (s pat : String) : Bool :=
  containsSubList pat.toList s.toList

/-- Header test for the id column. -/
def isIdHeaderCol (h : String) : Bool :=
  h == "comment-id" || h == "id"

/-- Header test for the text column. -/
def isTextHeaderCol (h : String) : Bool :=
  h == "comment_text" || h == "text"

/-- The vote-column filter of `convertToComments` (lines 236-243). -/
def isVoteCol (h : String) : Bool :=
  containsSub h "-agree-count" || containsSub h "-disagree-count" ||
    containsSub h "-pass-count" || h == "agrees" || h == "disagrees" || h == "passes"

/-- A JavaScript `Set` built from a list: first occurrences survive, insertion order is kept. -/
def jsSetDedup (l : List String) : List String :=
  l.foldl (fun acc x => if acc.contains x then acc else acc ++ [x]) []

/-- Truthiness of a cell read from a row (`undefined` and the empty string are falsy). -/
def truthyCell (o : Option String) : Bool :=
  match o with
  | some s => s ≠ ""
  | none => false

/-- The per-dataset context `convertToComments` computes before its row loop. -/
structure ConvertCtx where
  headers : List String
  idHeader : String
  textHeader : String
  voteColumns : List String
  hasGroupInfo : Bool
  hasSimpleVotes : Bool
  groupNames : List String
  deriving Repr

/--
The simple-vote branch of `convertToComments` (lines 301-333).  The source
locates each column with `findIndex` and reads `row[headers[index]]`, which
is the cell of the column bearing that exact name, so the embedding reads
the cell by column name directly.
-/
def simpleVoteInfo (ctx : ConvertCtx) (row : CSVRow) : JVal :=
  if ctx.headers.contains "agrees" ∧ ctx.headers.contains "disagrees" then
    let agrees := parseIntOr0 (getCol row "agrees")
    let disagrees := parseIntOr0 (getCol row "disagrees")
    let passes := if ctx.headers.contains "passes" then parseIntOr0 (getCol row "passes") else 0
    mkVoteTally (.num agrees) (.num disagrees) (.num passes)
  else (.undef)

/-- The grouped-vote branch of `convertToComments` (lines 334-377). -/
def groupVoteInfo (ctx : ConvertCtx) (row : CSVRow) : JVal :=
  let vi := ctx.groupNames.foldl (fun acc g =>
    if ctx.headers.contains (g ++ "-agree-count") ∧
        ctx.headers.contains (g ++ "-disagree-count") then
      let a := parseIntOr0 (getCol row (g ++ "-agree-count"))
      let d := parseIntOr0 (getCol row (g ++ "-disagree-count"))
      let p := if ctx.headers.contains (g ++ "-pass-count") then
          parseIntOr0 (getCol row (g ++ "-pass-count")) else 0
      acc ++ [(g, mkVoteTally (.num a) (.num d) (.num p))]
    else acc) []
  if ¬ vi.isEmpty then JVal.obj vi false false else (.undef)

/-- Vote-information dispatch of the row loop (lines 297-381). -/
def voteInfoOf (ctx : ConvertCtx) (row : CSVRow) : JVal :=
  if ctx.voteColumns ≠ [] then
    if ctx.hasSimpleVotes then simpleVoteInfo ctx row
    else if ctx.hasGroupInfo ∧ ctx.groupNames ≠ [] then groupVoteInfo ctx row
    else .undef
  else (.undef)

/-- Topic handling of the row loop (lines 385-405), stored under `metadata.topics`. -/
def topicsMetaOf (ctx : ConvertCtx) (row : CSVRow) : Option (List Topic) :=
  if ctx.headers.contains "topics" ∧ truthyCell (getCol row "topics") then
    let ts := parseTopicsString ((getCol row "topics").getD "")
    if ¬ ts.isEmpty then some ts else none
  else if ctx.headers.contains "topic" ∧ truthyCell (getCol row "topic") then
    some [Topic.node none ((getCol row "topic").getD "")
      (if ctx.headers.contains "subtopic" ∧ truthyCell (getCol row "subtopic") then
        [Topic.node none ((getCol row "subtopic").getD "") []]
      else [])]
  else none

/--
One iteration of the row loop of `convertToComments` (lines 284-409): the
id falls back to the placeholder `comment-<index>` when the cell is missing
or empty (falsy), the text falls back to the empty string, then vote and
topic information is attached.
-/
def buildComment (ctx : ConvertCtx) (i : Nat) (row : CSVRow) : Comment :=
  { id :=
      match getCol row ctx.idHeader with
      | some s => if s = "" then "comment-" ++ toString i else s
      | none => "comment-" ++ toString i
    text := (getCol row ctx.textHeader).getD ""
    topics := .undef
    metadata := topicsMetaOf ctx row
    voteInfo := voteInfoOf ctx row
    extra := [] }

/-- The indexed row loop of `convertToComments`. -/
def convertRows (ctx : ConvertCtx) : Nat → List CSVRow → List Comment
  | _, [] => []
  | i, row :: rest => buildComment ctx i row :: convertRows ctx (i + 1) rest

/--
Embedding of `convertToComments`
(src/utils/sensemake_openrouter_utils.ts lines 215-413): resolve the id and
text columns (throwing when either is missing), compute the vote-column
context, then convert each row to one comment.
-/
def convertToComments (headers : List String) (rows : List CSVRow) :
    Except String (List Comment) :=
  match headers.findIdx? isIdHeaderCol, headers.findIdx? isTextHeaderCol with
  | some idIndex, some textIndex =>
      let idHeader := headers.getD idIndex ""
      let textHeader := headers.getD textIndex ""
      let voteColumns := headers.filter isVoteCol
      let hasGroupInfo := voteColumns.any (fun c => containsSub c "-agree-count")
      let hasSimpleVotes := voteColumns.any
        (fun c => c == "agrees" || c == "disagrees" || c == "passes")
      let groupNames := if hasGroupInfo then
          jsSetDedup (voteColumns.map
            (fun c => String.mk ((splitOnChar (Char.ofNat 45) c.toList).headD [])))
        else []
      .ok (convertRows
        ⟨headers, idHeader, textHeader, voteColumns, hasGroupInfo, hasSimpleVotes, groupNames⟩
        0 rows)
  | _, _ => .error "CSV must contain comment-id (or id) and comment_text (or text) columns"

/-- The durable R2 bucket: a mapping from object key to the stored JSON document. -/
abbrev Store := List (String × JVal)

/-- `bucket.get(key)`. -/
def lookupStore (s : Store) (k : String) : Option JVal :=
  (s.find? (fun p => p.1 == k)).map (fun p => p.2)

/-- `bucket.delete(key)`: removing an absent key succeeds and changes nothing. -/
def eraseStore (s : Store) (k : String) : Store :=
  s.filter (fun p => p.1 != k)

/-- `bucket.put(key, value)`: a per-key overwrite. -/
def putStore (s : Store) (k : String) (v : JVal) : Store :=
  if s.any (fun p => p.1 == k) then s.map (fun p => if p.1 == k then (k, v) else p)
  else s ++ [(k, v)]

/-- The strict string-equality test `v === 'lit'` on a JavaScript value. -/
def jsEqStr (v : JVal) (lit : String) : Bool :=
  match v with
  | .str t => t == lit
  | _ => false

/-- An HTTP response: status code plus the JSON body passed to `Response`. -/
structure HttpResponse where
  status : Nat
  body : JVal
  deriving Repr

/-- `pathParts[pathParts.length - 1]` after the pathname is split on slashes. -/
def lastPathSegment (path : String) : String :=
  String.mk ((splitOnChar (Char.ofNat 47) path.toList).getLastD [])

/--
Embedding of `handleGetResultRequest` (index lines 693-799): take the task
id from the last path segment (400 when falsy), read only the document
stored under that id's result key, and answer 404 / 500 / 200 according to
its absence, `failed` status, or anything else.
-/
def handleGetResultRequest (store : Store) (path : String) : HttpResponse :=
  let taskId := lastPathSegment path
  if taskId = "" then
    ⟨400, .obj [("error", .str "Missing Task ID"),
      ("message", .str "Task ID is required")] false false⟩
  else
    match lookupStore store (taskId ++ ".json") with
    | none =>
        ⟨404, .obj [("error", .str "Task Not Found"),
          ("message", .str "Task not found or still processing"),
          ("taskId", .str taskId), ("status", .str "not_found")] false false⟩
    | some resultData =>
        if jsEqStr (resultData.getProp "status") "failed" then
          ⟨500, .obj [("message", .str "Task processing failed"),
            ("taskId", .str taskId), ("status", .str "failed"),
            ("error", resultData.getProp "error"),
            ("failedAt", resultData.getProp "failedAt")] false false⟩
        else
          ⟨200, .obj [("success", .bool true), ("taskId", .str taskId),
            ("status", .str "completed"),
            ("completedAt", resultData.getProp "completedAt"),
            ("model", resultData.getProp "model"),
            ("commentsProcessed", resultData.getProp "commentsProcessed"),
            ("additionalContext", resultData.getProp "additionalContext"),
            ("outputLanguage", resultData.getProp "outputLanguage"),
            ("summary", resultData.getProp "summary")] false false⟩

/--
Embedding of `handleDeleteTaskRequest` (index lines 804-894): 400 on a
falsy task id; 404 with the store untouched when the result record is
absent; otherwise delete the result record and then the status record
(whose absence is not an error) and answer 200.
-/
def handleDeleteTaskRequest (store : Store) (path : String) : HttpResponse × Store :=
  let taskId := lastPathSegment path
  if taskId = "" then
    (⟨400, .obj [("error", .str "Missing Task ID"),
      ("message", .str "Task ID is required")] false false⟩, store)
  else
    match lookupStore store (taskId ++ ".json") with
    | none =>
        (⟨404, .obj [("error", .str "Task Not Found"),
          ("message", .str "Task report not found"),
          ("taskId", .str taskId), ("status", .str "not_found")] false false⟩, store)
    | some _ =>
        (⟨200, .obj [("success", .bool true),
          ("message", .str "Task report deleted successfully"),
          ("taskId", .str taskId)] false false⟩,
         eraseStore (eraseStore store (taskId ++ ".json")) (taskId ++ "-status.json"))

/-- A JavaScript value thrown by the analysis pipeline: an `Error` with its message, or any non-`Error` value. -/
inductive ThrownVal where
  | errMsg (m : String)
  | nonError
  deriving DecidableEq, Repr

/-- `error instanceof Error ? error.message : 'Unknown error'`. -/
def thrownText : ThrownVal → String
  | .errMsg m => m
  | .nonError => "Unknown error"

/-- An observable action of the queue consumer, in execution order. -/
inductive QEvent where
  | putOk (key : String) (doc : JVal)
  | putErr (key : String)
  | ack
  | retry
  deriving Repr

/--
Outcome of the external analysis engine across its three stages
(`learnTopics`, `categorizeComments`, `summarize`) followed by the text
rendering.  The engine lives in the sensemaking-tools dependency and is out
of scope, so a single task either yields the rendered markdown or throws.
-/
inductive EngineOutcome where
  | success (summary : String)
  | failure (t : ThrownVal)
  deriving Repr

/-- Fault injection for the durable store, with the value a failing completed-record write throws. -/
structure StorageBehavior where
  completedPutOk : Bool := true
  failedPutOk : Bool := true
  statusPutOk : Bool := true
  completedPutErr : ThrownVal := .nonError
  deriving Repr

/-- The queue task payload (index lines 37-45), reduced to the fields the consumer reads. -/
structure SensemakeTask where
  taskId : String
  comments : List Comment
  openRouterModel : String := ""
  additionalContext : Option String := none
  outputLang : String := "en"
  deriving Repr

/-- The status document written by `updateTaskStatus` (index lines 1342-1371). -/
def statusDoc (taskId status : String) (attempt : Nat) (now : String) : JVal :=
  .obj [("taskId", .str taskId), ("status", .str status),
    ("lastUpdated", .str now), ("attempt", .num (Int.ofNat attempt)),
    ("progress", .str "unknown")] false false

/-- Events of one `updateTaskStatus` call; its internal catch swallows a storage failure, so it never throws. -/
def updateTaskStatusEvents (taskId status : String) (attempt : Nat) (now : String)
    (ok : Bool) : List QEvent :=
  if ok then [.putOk (taskId ++ "-status.json") (statusDoc taskId status attempt now)]
  else [.putErr (taskId ++ "-status.json")]

/-- The `completed` result document written by `processSensemakeTask` (index lines 550-559). -/
def completedResultDoc (task : SensemakeTask) (summary now : String) : JVal :=
  .obj [("taskId", .str task.taskId), ("status", .str "completed"),
    ("completedAt", .str now), ("model", .str task.openRouterModel),
    ("commentsProcessed", .num (Int.ofNat task.comments.length)),
    ("additionalContext",
      match task.additionalContext with
      | some s => .str s
      | none => .null),
    ("outputLanguage", .str task.outputLang),
    ("summary", .str summary)] false false

/-- The `failed` result document written by `processSensemakeTask` (index lines 580-586); the stack trace of a non-`Error` value is `undefined`. -/
def failedResultDoc (taskId : String) (t : ThrownVal) (now : String) : JVal :=
  .obj [("taskId", .str taskId), ("status", .str "failed"),
    ("failedAt", .str now), ("error", .str (thrownText t)),
    ("stack", .undef)] false false

/--
Embedding of `processSensemakeTask` (index lines 493-607) as an event trace
plus the value it rethrows: on engine success the completed record is
written (a failing write is caught like any other exception, producing a
best-effort failed record naming the storage error, and rethrown); on
engine failure the failed record is written best-effort (its own write
failure is only logged) and the original exception is rethrown.
-/
def processSensemakeTask (task : SensemakeTask) (engine : EngineOutcome)
    (sb : StorageBehavior) (now : String) : List QEvent × Option ThrownVal :=
  let resultKey := task.taskId ++ ".json"
  match engine with
  | .success summary =>
      if sb.completedPutOk then ([.putOk resultKey (completedResultDoc task summary now)], none)
      else
        let t := sb.completedPutErr
        if sb.failedPutOk then
          ([.putErr resultKey, .putOk resultKey (failedResultDoc task.taskId t now)], some t)
        else ([.putErr resultKey, .putErr resultKey], some t)
  | .failure t =>
      if sb.failedPutOk then ([.putOk resultKey (failedResultDoc task.taskId t now)], some t)
      else ([.putErr resultKey], some t)

/--
Embedding of one iteration of the queue consumer loop (index lines
291-327): write the `processing` status, run `processSensemakeTask` over
the re-normalized comments, then either acknowledge the message (success)
or write the `failed` status best-effort and mark the message for retry.
-/
def consumeMessage (task : SensemakeTask) (engine : EngineOutcome)
    (sb : StorageBehavior) (now : String) : List QEvent :=
  let statusEvts := updateTaskStatusEvents task.taskId "processing" 1 now sb.statusPutOk
  let processed := processSensemakeTask
    { task with comments := normalizeCommentsVoteInfo task.comments } engine sb now
  match processed.2 with
  | none => statusEvts ++ processed.1 ++ [.ack]
  | some _ =>
      statusEvts ++ processed.1 ++
        updateTaskStatusEvents task.taskId "failed" 1 now sb.statusPutOk ++ [.retry]

/-- The three counts carried by a (normalized) tally value. -/
def tallyCounts (w : JVal) : JVal × JVal × JVal :=
  (w.getProp "agreeCount", w.getProp "disagreeCount", w.getProp "passCount")

/-- `Object.keys` of a value (empty for non-objects). -/
def objKeys (w : JVal) : List String :=
  match w with
  | .obj fields _ _ => fields.map (fun p => p.1)
  | _ => []

/--
A value that is a vote tally: an object whose own enumerable properties are
all primitive non-null values, and which carries the three canonical count
properties whenever it presents itself as a `VoteTally` (callable
`getTotalCount` or `VoteTally` constructor), as every `VoteTally` instance
does.
-/
def isTallyObjB : JVal → Bool
  | .obj fields fn ctor =>
      fields.all (fun p => ! p.2.isObjTypeof) &&
      (! (fn || ctor) ||
        (! ((JVal.obj fields fn ctor).getProp "agreeCount").nullish &&
         ! ((JVal.obj fields fn ctor).getProp "disagreeCount").nullish &&
         ! ((JVal.obj fields fn ctor).getProp "passCount").nullish))
  | _ => false

/-- A grouped mapping of tallies: a plain object each of whose values is a vote tally. -/
def isGroupedTalliesB : JVal → Bool
  | .obj fields fn ctor => ! fn && ! ctor && fields.all (fun p => isTallyObjB p.2)
  | _ => false

/-- The `voteInfo` of the i-th comment of a list (`undefined` out of range). -/
def viAt (cs : List Comment) (i : Nat) : JVal :=
  ((cs.get? i).map (fun c => c.voteInfo)).getD (.undef)

/-! Helper lemmas shared by several claims. -/

/-- The nullish-coalescing chain of the normalizers equals the first-present description used in the spec. -/
theorem pickCount_eq_firstPresentOrZero (v : JVal) (k1 k2 k3 : String) :
    pickCount v k1 k2 k3 =
      firstPresentOrZero (v.getProp k1) (v.getProp k2) (v.getProp k3) := by
  unfold pickCount firstPresentOrZero jsCoalesce
  by_cases h1 : (v.getProp k1).nullish <;>
    by_cases h2 : (v.getProp k2).nullish <;>
      by_cases h3 : (v.getProp k3).nullish <;>
        simp [h1, h2, h3]

/-- Addition of two numeric values in the JavaScript model. -/
theorem jsAdd_num (a b : Int) : jsAdd (.num a) (.num b) = .num (a + b) := rfl

/-- A number is never nullish. -/
theorem num_not_nullish (n : Int) : (JVal.num n).nullish = false := rfl

/-! Claim C1: alias resolution and total accessor of the tally normalizer. -/

/--
Claim C1, counterexample.  The claim states that an unparsable count field
resolves to 0, but `toVoteTally` performs no parsing: for the input
`{agrees: "abc"}` the produced tally's `agreeCount` is the string `"abc"`,
not the number 0.
-/
theorem C1_counterexample :
    (toVoteTally (JVal.obj [("agrees", JVal.str "abc")] false false)).getProp "agreeCount" =
      JVal.str "abc" ∧ JVal.str "abc" ≠ JVal.num 0 := by
  refine ⟨rfl, ?_⟩
  intro h
  exact JVal.noConfusion h

/--
Claim C1, amended.  For every plain tally input (no callable
`getTotalCount`), each count of the produced tally is the first present
(non-nullish) field among its aliases — `agreeCount`, `agrees`, `agree`
for agree, and likewise for disagree and pass — with 0 only when every
alias is missing; present fields are taken as-is even when non-numeric.
Whenever the three selected counts are numbers `a`, `d`, `p`, the total
accessor satisfies `getTotalCount(true) = a + d + p` and
`getTotalCount(false) = a + d`.
-/
theorem C1_toVoteTally_alias_and_total (fields : List (String × JVal)) (fn ctor : Bool)
    (hfn : fn = false) :
    ((toVoteTally (JVal.obj fields fn ctor)).getProp "agreeCount" =
        firstPresentOrZero ((JVal.obj fields fn ctor).getProp "agreeCount")
          ((JVal.obj fields fn ctor).getProp "agrees")
          ((JVal.obj fields fn ctor).getProp "agree") ∧
      (toVoteTally (JVal.obj fields fn ctor)).getProp "disagreeCount" =
        firstPresentOrZero ((JVal.obj fields fn ctor).getProp "disagreeCount")
          ((JVal.obj fields fn ctor).getProp "disagrees")
          ((JVal.obj fields fn ctor).getProp "disagree") ∧
      (toVoteTally (JVal.obj fields fn ctor)).getProp "passCount" =
        firstPresentOrZero ((JVal.obj fields fn ctor).getProp "passCount")
          ((JVal.obj fields fn ctor).getProp "passes")
          ((JVal.obj fields fn ctor).getProp "pass")) ∧
    ∀ a d p : Int,
      (toVoteTally (JVal.obj fields fn ctor)).getProp "agreeCount" = .num a →
      (toVoteTally (JVal.obj fields fn ctor)).getProp "disagreeCount" = .num d →
      (toVoteTally (JVal.obj fields fn ctor)).getProp "passCount" = .num p →
      getTotalCountSem (toVoteTally (JVal.obj fields fn ctor)) true = .num (a + d + p) ∧
      getTotalCountSem (toVoteTally (JVal.obj fields fn ctor)) false = .num (a + d) := by
  subst hfn
  have hval : toVoteTally (JVal.obj fields false ctor) =
      mkVoteTally
        (pickCount (JVal.obj fields false ctor) "agreeCount" "agrees" "agree")
        (pickCount (JVal.obj fields false ctor) "disagreeCount" "disagrees" "disagree")
        (pickCount (JVal.obj fields false ctor) "passCount" "passes" "pass") := by
    simp [toVoteTally, JVal.truthy, JVal.hasGetTotalCountFn]
  constructor
  · refine ⟨?_, ?_, ?_⟩ <;>
      rw [hval] <;>
      simp [mkVoteTally, JVal.getProp, pickCount_eq_firstPresentOrZero]
  · intro a d p ha hd hp
    unfold getTotalCountSem
    rw [ha, hd, hp]
    constructor
    · simp [jsAdd_num]
    · simp [jsAdd_num]

/--
Claim C1, witness: a concrete tally arriving under the `agrees` alias keeps
its count 7 and has totals 7 (with passes) and 7 (without).
-/
theorem C1_witness :
    (toVoteTally (JVal.obj [("agrees", JVal.num 7)] false false)).getProp "agreeCount" =
        JVal.num 7 ∧
      getTotalCountSem (toVoteTally (JVal.obj [("agrees", JVal.num 7)] false false)) true =
        JVal.num 7 ∧
      getTotalCountSem (toVoteTally (JVal.obj [("agrees", JVal.num 7)] false false)) false =
        JVal.num 7 := by
  have h := C1_toVoteTally_alias_and_total [("agrees", JVal.num 7)] false false rfl
  have ha : (toVoteTally (JVal.obj [("agrees", JVal.num 7)] false false)).getProp "agreeCount" =
      JVal.num 7 := h.1.1.trans (by rfl)
  have hd : (toVoteTally (JVal.obj [("agrees", JVal.num 7)] false false)).getProp "disagreeCount" =
      JVal.num 0 := h.1.2.1.trans (by rfl)
  have hp : (toVoteTally (JVal.obj [("agrees", JVal.num 7)] false false)).getProp "passCount" =
      JVal.num 0 := h.1.2.2.trans (by rfl)
  have ht := h.2 7 0 0 ha hd hp
  exact ⟨ha, ht.1.trans (by norm_num), ht.2.trans (by norm_num)⟩

/-! Claim C3: the topic-string parser. -/

/--
Claim C3, counterexample.  The parser splits on commas, not semicolons:
the comma-separated input is split into two flat topics, while the
semicolon-separated input that the claim says is the entry separator stays
one single topic whose name still contains the semicolon.
-/
theorem C3_counterexample :
    parseTopicsString "Education:Math,Science:Physics" =
        [Topic.node (some "education:math") "Education:Math" [],
         Topic.node (some "science:physics") "Science:Physics" []] ∧
      parseTopicsString "Education:Math;Science:Physics" =
        [Topic.node (some "education:math;science:physics")
          "Education:Math;Science:Physics" []] :=
  ⟨rfl, rfl⟩

/--
Claim C3, amended.  `parseTopicsString` splits its input on commas only and
produces a flat topic per nonempty trimmed part — subtopics are always
empty, the id is the lowercased whitespace-hyphenated name, colons and
semicolons are not delimiters, and equal parts are not deduplicated.
-/
theorem C3_parseTopicsString_flat (s : String) (t : Topic)
    (ht : t ∈ parseTopicsString s) :
    (t.subtopics = [] ∧ t.id = some (topicIdOf t.name)) ∧
      parseTopicsString "A,B" =
        [Topic.node (some "a") "A" [], Topic.node (some "b") "B" []] ∧
      parseTopicsString "A;B" = [Topic.node (some "a;b") "A;B" []] ∧
      parseTopicsString "A,A" =
        [Topic.node (some "a") "A" [], Topic.node (some "a") "A" []] := by
  refine ⟨?_, rfl, rfl, rfl⟩
  unfold parseTopicsString at ht
  split at ht
  · simp at ht
  · simp only [List.mem_map] at ht
    obtain ⟨name, _, rfl⟩ := ht
    exact ⟨rfl, rfl⟩

/-- Claim C3, witness: the single-part input `Education` yields the expected flat topic. -/
theorem C3_witness :
    (Topic.node (some "education") "Education" []).subtopics = [] ∧
      (Topic.node (some "education") "Education" []).id =
        some (topicIdOf (Topic.node (some "education") "Education" []).name) := by
  have hmem : Topic.node (some "education") "Education" [] ∈ parseTopicsString "Education" := by
    have heq : parseTopicsString "Education" =
        [Topic.node (some "education") "Education" []] := rfl
    rw [heq]
    exact List.mem_singleton.mpr rfl
  exact (C3_parseTopicsString_flat "Education" _ hmem).1

/-! Claim C5: CSV format detection. -/

/--
Claim C5, counterexample.  A header list containing only `comment-body`
lacks `comment-id`, `agrees` and `disagrees`, so the claim requires the
result `unknown`; the detector's third branch nevertheless answers
`pol.is`.
-/
theorem C5_counterexample :
    detectCSVFormat ["comment-body"] [] = CSVFormat.polis ∧
      CSVFormat.polis ≠ CSVFormat.unknown :=
  ⟨rfl, by decide⟩

/--
Claim C5, amended.  Detection is by priority: `complete` exactly when the
five complete-format columns are present; otherwise `pol.is` exactly when
`comment-body` is present (the `comment-id`, `agrees`, `disagrees` columns
are not required, because a variant branch accepts any header set
containing `comment-body`); `unknown` otherwise.
-/
theorem C5_detectCSVFormat_characterization (headers : List String) (rows : List CSVRow) :
    (detectCSVFormat headers rows = CSVFormat.complete ↔
      ("comment-id" ∈ headers ∧ "comment_text" ∈ headers ∧ "agrees" ∈ headers ∧
        "disagrees" ∈ headers ∧ "passes" ∈ headers)) ∧
    (detectCSVFormat headers rows = CSVFormat.polis ↔
      (¬ ("comment-id" ∈ headers ∧ "comment_text" ∈ headers ∧ "agrees" ∈ headers ∧
        "disagrees" ∈ headers ∧ "passes" ∈ headers) ∧ "comment-body" ∈ headers)) ∧
    (detectCSVFormat headers rows = CSVFormat.unknown ↔
      (¬ ("comment-id" ∈ headers ∧ "comment_text" ∈ headers ∧ "agrees" ∈ headers ∧
        "disagrees" ∈ headers ∧ "passes" ∈ headers) ∧ "comment-body" ∉ headers)) := by
  unfold detectCSVFormat
  split_ifs with h1 h2 h3 <;>
    simp_all [List.all_eq_true, List.elem_iff]

/-! Claim C4: synthesis of passes and votes for pol.is rows. -/

/-- Reading the written key back from the in-place replacement map of `setCol`. -/
theorem getCol_mapReplace_self (row : CSVRow) (k v : String)
    (hany : row.any (fun p => p.1 == k) = true) :
    getCol (row.map (fun p => if p.1 == k then (k, v) else p)) k = some v := by
  induction row with
  | nil => simp at hany
  | cons hd tl ih =>
      by_cases hk : hd.1 = k
      · simp [getCol, List.find?_cons, hk]
      · have h2 : tl.any (fun p => p.1 == k) = true := by
          simpa [List.any_cons, hk] using hany
        simpa [getCol, List.find?_cons, hk] using ih h2

/-- Reading any other key back from the in-place replacement map of `setCol`. -/
theorem getCol_mapReplace_ne (row : CSVRow) (k v k2 : String) (h : k2 ≠ k) :
    getCol (row.map (fun p => if p.1 == k then (k, v) else p)) k2 = getCol row k2 := by
  induction row with
  | nil => rfl
  | cons hd tl ih =>
      obtain ⟨a, b⟩ := hd
      by_cases hk : a = k
      · subst hk
        simpa [getCol, List.find?_cons, Ne.symm h] using ih
      · by_cases hk2 : a = k2
        · subst hk2
          simp [getCol, List.find?_cons, hk]
        · simpa [getCol, List.find?_cons, hk, hk2] using ih

/-- Reading the appended key back from the append branch of `setCol`. -/
theorem getCol_append_single_self (row : CSVRow) (k v : String)
    (hany : ¬ row.any (fun p => p.1 == k) = true) :
    getCol (row ++ [(k, v)]) k = some v := by
  induction row with
  | nil => simp [getCol, List.find?_cons]
  | cons hd tl ih =>
      have hk : ¬ hd.1 = k := by
        intro hk
        exact hany (by simp [List.any_cons, hk])
      have h2 : ¬ tl.any (fun p => p.1 == k) = true := by
        intro h2
        exact hany (by simp [List.any_cons, h2])
      simpa [getCol, List.find?_cons, hk] using ih h2

/-- Reading any other key through the append branch of `setCol`. -/
theorem getCol_append_single_ne (row : CSVRow) (k v k2 : String) (h : k2 ≠ k) :
    getCol (row ++ [(k, v)]) k2 = getCol row k2 := by
  induction row with
  | nil => simp [getCol, List.find?_cons, Ne.symm h]
  | cons hd tl ih =>
      by_cases hk2 : hd.1 = k2
      · simp [getCol, List.find?_cons, hk2]
      · simpa [getCol, List.find?_cons, hk2] using ih

/-- Reading back the column just written by `setCol`. -/
theorem getCol_setCol_self (row : CSVRow) (k v : String) :
    getCol (setCol row k v) k = some v := by
  unfold setCol
  split_ifs with h
  · exact getCol_mapReplace_self row k v h
  · exact getCol_append_single_self row k v h

/-- `setCol` leaves every other column alone. -/
theorem getCol_setCol_ne (row : CSVRow) (k v k2 : String) (h : k2 ≠ k) :
    getCol (setCol row k v) k2 = getCol row k2 := by
  unfold setCol
  split_ifs with hany
  · exact getCol_mapReplace_ne row k v k2 h
  · exact getCol_append_single_ne row k v k2 h

/-- `removeCol` leaves every other column alone. -/
theorem getCol_removeCol_ne (row : CSVRow) (k k2 : String) (h : k2 ≠ k) :
    getCol (removeCol row k) k2 = getCol row k2 := by
  induction row with
  | nil => simp [getCol, removeCol]
  | cons hd tl ih =>
      obtain ⟨a, b⟩ := hd
      by_cases hk : a = k
      · subst hk
        simpa [getCol, removeCol, List.filter_cons, Ne.symm h] using ih
      · by_cases hk2 : a = k2
        · subst hk2
          simp [getCol, removeCol, List.filter_cons, hk]
        · simpa [getCol, removeCol, List.filter_cons, hk, hk2] using ih

/-- The body renaming touches only the `comment-body` and `comment_text` columns. -/
theorem getCol_renameBodyRow_ne (row : CSVRow) (k : String)
    (h1 : k ≠ "comment_text") (h2 : k ≠ "comment-body") :
    getCol (renameBodyRow row) k = getCol row k := by
  unfold renameBodyRow
  split_ifs with hb
  · rw [getCol_removeCol_ne _ _ _ h2, getCol_setCol_ne _ _ _ _ h1]
  · rfl

/-- The moderation rule as an if-chain equals its two-sided description. -/
theorem moderated_passes_eq (m : Option String) :
    (if m = some "1" then (0 : Int) else if m = some "-1" then 0
      else if m = some "0" then 1 else 1) =
    (if m = some "1" ∨ m = some "-1" then 0 else 1) := by
  by_cases h1 : m = some "1" <;> by_cases h2 : m = some "-1" <;>
    by_cases h3 : m = some "0" <;> simp [h1, h2, h3]

/-- The two synthesized cells of one row after `addVotesPasses`. -/
theorem addVotesPasses_spec (row : CSVRow) :
    getCol (addVotesPasses row) "passes" =
      some (if getCol row "moderated" = some "1" ∨ getCol row "moderated" = some "-1"
        then "0" else "1") ∧
    getCol (addVotesPasses row) "votes" =
      some (optIntToString (optAdd
        (optAdd (parseIntJS ((getCol row "agrees").getD "NaN"))
          (parseIntJS ((getCol row "disagrees").getD "NaN")))
        (some (if getCol row "moderated" = some "1" ∨ getCol row "moderated" = some "-1"
          then 0 else 1)))) := by
  simp only [addVotesPasses]
  rw [moderated_passes_eq]
  constructor
  · rw [getCol_setCol_ne _ _ _ _ (by decide), getCol_setCol_self]
    by_cases h : getCol row "moderated" = some "1" ∨ getCol row "moderated" = some "-1" <;>
      simp [h] <;> rfl
  · rw [getCol_setCol_self]

/--
Claim C4.  Whenever `convertCSV_new` succeeds, every output row carries a
synthesized `passes` of 0 exactly when its input row's `moderated` is `1`
or `-1` and 1 otherwise (including `0` and any other value), and its
`votes` renders `agrees + disagrees + passes`; consequently if every input
row has `moderated = 1`, every output row has `passes = 0` and
`votes = agrees + disagrees`.
-/
theorem C4_convertCSV_new_passes_votes (rows rows2 : List CSVRow)
    (fns : List String) (st : CSVStats)
    (hok : convertCSV_new rows = .ok rows2 fns st) :
    (∀ i row row2, rows.get? i = some row → rows2.get? i = some row2 →
      getCol row2 "passes" =
        some (if getCol row "moderated" = some "1" ∨ getCol row "moderated" = some "-1"
          then "0" else "1") ∧
      ∀ a d : Int, parseIntJS ((getCol row "agrees").getD "NaN") = some a →
        parseIntJS ((getCol row "disagrees").getD "NaN") = some d →
        getCol row2 "votes" = some (toString (a + d +
          (if getCol row "moderated" = some "1" ∨ getCol row "moderated" = some "-1"
            then 0 else 1)))) ∧
    ((∀ row ∈ rows, getCol row "moderated" = some "1") →
      ∀ i row row2, rows.get? i = some row → rows2.get? i = some row2 →
        getCol row2 "passes" = some "0" ∧
        ∀ a d : Int, parseIntJS ((getCol row "agrees").getD "NaN") = some a →
          parseIntJS ((getCol row "disagrees").getD "NaN") = some d →
          getCol row2 "votes" = some (toString (a + d))) := by
  have main : ∀ i row row2, rows.get? i = some row → rows2.get? i = some row2 →
      getCol row2 "passes" =
        some (if getCol row "moderated" = some "1" ∨ getCol row "moderated" = some "-1"
          then "0" else "1") ∧
      ∀ a d : Int, parseIntJS ((getCol row "agrees").getD "NaN") = some a →
        parseIntJS ((getCol row "disagrees").getD "NaN") = some d →
        getCol row2 "votes" = some (toString (a + d +
          (if getCol row "moderated" = some "1" ∨ getCol row "moderated" = some "-1"
            then 0 else 1))) := by
    cases rows with
    | nil => simp [convertCSV_new] at hok
    | cons first rest =>
        rw [convertCSV_new] at hok
        split at hok
        · exact ConversionResult.noConfusion hok
        · simp only [ConversionResult.ok.injEq] at hok
          obtain ⟨hrows2, -, -⟩ := hok
          intro i row row2 hrow hrow2
          rw [← hrows2, List.get?_map] at hrow2
          set rows1 := if (rowKeys first).contains "comment-body" then
              (first :: rest).map renameBodyRow
            else first :: rest with hrows1
          have hmods : getCol ((rows1.get? i).getD []) "moderated" = getCol row "moderated" ∧
              getCol ((rows1.get? i).getD []) "agrees" = getCol row "agrees" ∧
              getCol ((rows1.get? i).getD []) "disagrees" = getCol row "disagrees" ∧
              (rows1.get? i).isSome := by
            rw [hrows1]
            split_ifs with hb
            · rw [List.get?_map, hrow]
              exact ⟨getCol_renameBodyRow_ne _ _ (by decide) (by decide),
                getCol_renameBodyRow_ne _ _ (by decide) (by decide),
                getCol_renameBodyRow_ne _ _ (by decide) (by decide), rfl⟩
            · rw [hrow]
              exact ⟨rfl, rfl, rfl, rfl⟩
          obtain ⟨hm, hag, hdg, hsome⟩ := hmods
          obtain ⟨row1, hrow1⟩ := Option.isSome_iff_exists.mp hsome
          rw [hrow1] at hrow2
          simp only [Option.map_some', Option.some.injEq] at hrow2
          rw [hrow1] at hm hag hdg
          simp only [Option.getD_some] at hm hag hdg
          have hspec := addVotesPasses_spec row1
          rw [hm, hag, hdg] at hspec
          subst hrow2
          refine ⟨hspec.1, ?_⟩
          intro a d ha hd
          rw [hspec.2, ha, hd]
          by_cases h : getCol row "moderated" = some "1" ∨ getCol row "moderated" = some "-1" <;>
            simp [h, optAdd, optIntToString]
  refine ⟨main, ?_⟩
  intro hall i row row2 hrow hrow2
  have hmem : row ∈ rows := List.get?_mem hrow
  have hm := hall row hmem
  have h := main i row row2 hrow hrow2
  rw [hm] at h
  refine ⟨by simpa using h.1, ?_⟩
  intro a d ha hd
  have h2 := h.2 a d ha hd
  simpa using h2

/-- Claim C4, witness: a single moderated row with 3 agrees and 2 disagrees gets passes 0 and votes 5. -/
theorem C4_witness :
    convertCSV_new [[("agrees", "3"), ("disagrees", "2"), ("moderated", "1")]] =
      .ok [[("agrees", "3"), ("disagrees", "2"), ("moderated", "1"),
        ("passes", "0"), ("votes", "5")]]
        ["agrees", "disagrees", "passes", "votes", "moderated"]
        ⟨some 5, 0, some 5, some 5⟩ ∧
    getCol [("agrees", "3"), ("disagrees", "2"), ("moderated", "1"),
        ("passes", "0"), ("votes", "5")] "passes" = some "0" ∧
    getCol [("agrees", "3"), ("disagrees", "2"), ("moderated", "1"),
        ("passes", "0"), ("votes", "5")] "votes" = some "5" := by
  have hok : convertCSV_new [[("agrees", "3"), ("disagrees", "2"), ("moderated", "1")]] =
      .ok [[("agrees", "3"), ("disagrees", "2"), ("moderated", "1"),
        ("passes", "0"), ("votes", "5")]]
        ["agrees", "disagrees", "passes", "votes", "moderated"]
        ⟨some 5, 0, some 5, some 5⟩ := rfl
  have h := (C4_convertCSV_new_passes_votes _ _ _ _ hok).2
    (by
      intro row hr
      simp only [List.mem_singleton] at hr
      subst hr
      rfl)
    0 [("agrees", "3"), ("disagrees", "2"), ("moderated", "1")]
    [("agrees", "3"), ("disagrees", "2"), ("moderated", "1"), ("passes", "0"), ("votes", "5")]
    rfl rfl
  exact ⟨hok, h.1, (h.2 3 2 rfl rfl).trans (by rfl)⟩

/-! Claim C6: row conversion error handling and placeholders. -/

/-- The row loop produces exactly one comment per row. -/
theorem convertRows_length (ctx : ConvertCtx) : ∀ (n : Nat) (rows : List CSVRow),
    (convertRows ctx n rows).length = rows.length
  | _, [] => rfl
  | n, _ :: rest => by
      simp [convertRows, convertRows_length ctx (n + 1) rest]

/-- The i-th produced comment is the conversion of the i-th row at index n + i. -/
theorem convertRows_get (ctx : ConvertCtx) : ∀ (n : Nat) (rows : List CSVRow) (i : Nat)
    (row : CSVRow), rows.get? i = some row →
    (convertRows ctx n rows).get? i = some (buildComment ctx (n + i) row)
  | _, [], i, _, h => by simp at h
  | _, _ :: _, 0, _, h => by
      simp only [List.get?] at h
      injection h with h
      subst h
      rfl
  | n, _ :: rest, i + 1, row, h => by
      simp only [List.get?] at h
      have hrec := convertRows_get ctx (n + 1) rest i row h
      have harith : n + 1 + i = n + (i + 1) := by omega
      rw [harith] at hrec
      simpa [convertRows] using hrec

/--
Claim C6.  `convertToComments` fails with the descriptive column error when
the headers offer neither an id column (`comment-id`/`id`) nor a text
column (`comment_text`/`text`); when both columns resolve it succeeds with
exactly one comment per input row, a row whose id cell is missing or empty
receives the placeholder id `comment-<index>`, a nonempty id cell is kept,
and a missing text cell becomes the empty string while a present one is
kept.
-/
theorem C6_convertToComments_spec (headers : List String) (rows : List CSVRow) :
    ((headers.findIdx? isIdHeaderCol = none ∧ headers.findIdx? isTextHeaderCol = none) →
      convertToComments headers rows =
        .error "CSV must contain comment-id (or id) and comment_text (or text) columns") ∧
    (∀ idIndex textIndex,
      headers.findIdx? isIdHeaderCol = some idIndex →
      headers.findIdx? isTextHeaderCol = some textIndex →
      ∃ cs, convertToComments headers rows = .ok cs ∧ cs.length = rows.length ∧
        ∀ i row, rows.get? i = some row →
          ∃ c, cs.get? i = some c ∧
            ((getCol row (headers.getD idIndex "") = none ∨
                getCol row (headers.getD idIndex "") = some "") →
              c.id = "comment-" ++ toString i) ∧
            (∀ s, getCol row (headers.getD idIndex "") = some s → s ≠ "" → c.id = s) ∧
            (getCol row (headers.getD textIndex "") = none → c.text = "") ∧
            (∀ s, getCol row (headers.getD textIndex "") = some s → c.text = s)) := by
  constructor
  · intro h
    rw [convertToComments, h.1, h.2]
  · intro idIndex textIndex hid htext
    refine ⟨_, by rw [convertToComments, hid, htext], ?_, ?_⟩
    · exact convertRows_length _ 0 rows
    · intro i row hrow
      refine ⟨buildComment _ (0 + i) row, convertRows_get _ 0 rows i row hrow, ?_, ?_, ?_, ?_⟩
      · intro hcell
        rcases hcell with h0 | h0 <;>
        · simp only [buildComment]
          rw [h0]
          simp
      · intro s hs hne
        simp only [buildComment]
        rw [hs]
        simp [hne]
      · intro h0
        simp only [buildComment]
        rw [h0]
        rfl
      · intro s hs
        simp only [buildComment]
        rw [hs]
        rfl

/-- Claim C6, witness: an empty id cell becomes the placeholder and a present text cell is kept. -/
theorem C6_witness :
    ∃ cs, convertToComments ["comment-id", "comment_text"]
        [[("comment-id", ""), ("comment_text", "hello")]] = .ok cs ∧
      cs.length = 1 ∧
      ∃ c, cs.get? 0 = some c ∧ c.id = "comment-0" ∧ c.text = "hello" := by
  obtain ⟨cs, hok, hlen, hrows⟩ :=
    (C6_convertToComments_spec ["comment-id", "comment_text"]
      [[("comment-id", ""), ("comment_text", "hello")]]).2 0 1 rfl rfl
  obtain ⟨c, hc, hplaceholder, -, -, htext⟩ :=
    hrows 0 [("comment-id", ""), ("comment_text", "hello")] rfl
  refine ⟨cs, hok, hlen.trans rfl, c, hc, ?_, htext "hello" rfl⟩
  exact (hplaceholder (Or.inr rfl)).trans rfl

/-! Claims C7 and C9: the polling and deletion handlers. -/

/-- Deleting an absent key changes nothing. -/
theorem eraseStore_absent (s : Store) (k : String)
    (h : lookupStore s k = none) : eraseStore s k = s := by
  induction s with
  | nil => rfl
  | cons hd tl ih =>
      obtain ⟨a, b⟩ := hd
      by_cases hk : a = k
      · subst hk
        simp [lookupStore, List.find?_cons] at h
      · have htl : lookupStore tl k = none := by
          simpa [lookupStore, List.find?_cons, hk] using h
        simpa [eraseStore, List.filter_cons, hk] using ih htl

/--
Claim C7.  The polling handler consults only the result record
`<taskId>.json`: its absence yields 404 with status `not_found` (nothing
else — in particular no queue — is consulted, so a queued-but-unfinished
task and an unknown id are indistinguishable); a stored record with status
`failed` yields 500 carrying the stored error detail; a stored record with
status `completed` yields 200 carrying the stored summary.
-/
theorem C7_handleGetResultRequest_spec (store : Store) (path taskId : String)
    (hseg : lastPathSegment path = taskId) (hne : taskId ≠ "") :
    (lookupStore store (taskId ++ ".json") = none →
      (handleGetResultRequest store path).status = 404 ∧
      (handleGetResultRequest store path).body.getProp "status" = .str "not_found") ∧
    (∀ doc, lookupStore store (taskId ++ ".json") = some doc →
      doc.getProp "status" = .str "failed" →
      (handleGetResultRequest store path).status = 500 ∧
      (handleGetResultRequest store path).body.getProp "error" = doc.getProp "error") ∧
    (∀ doc, lookupStore store (taskId ++ ".json") = some doc →
      doc.getProp "status" = .str "completed" →
      (handleGetResultRequest store path).status = 200 ∧
      (handleGetResultRequest store path).body.getProp "summary" = doc.getProp "summary") ∧
    (∀ store2 : Store,
      lookupStore store2 (taskId ++ ".json") = lookupStore store (taskId ++ ".json") →
      handleGetResultRequest store2 path = handleGetResultRequest store path) := by
  refine ⟨?_, ?_, ?_, ?_⟩
  · intro hnone
    simp only [handleGetResultRequest, hseg, if_neg hne, hnone]
    constructor <;> first | rfl | trivial
  · intro doc hdoc hfailed
    simp only [handleGetResultRequest, hseg, if_neg hne, hdoc, hfailed]
    constructor <;> first | rfl | trivial
  · intro doc hdoc hcompleted
    simp only [handleGetResultRequest, hseg, if_neg hne, hdoc, hcompleted]
    constructor <;> first | rfl | trivial
  · intro store2 hsame
    simp only [handleGetResultRequest, hseg, if_neg hne, hsame]

/-- Claim C7, witness: on a two-record store, a failed record polls as 500 with its error, and a missing id polls as 404. -/
theorem C7_witness :
    (handleGetResultRequest
        [("t1.json", JVal.obj [("status", JVal.str "failed"), ("error", JVal.str "boom")]
          false false)]
        "/api/sensemake/result/t1").status = 500 ∧
    (handleGetResultRequest
        [("t1.json", JVal.obj [("status", JVal.str "failed"), ("error", JVal.str "boom")]
          false false)]
        "/api/sensemake/result/t1").body.getProp "error" = JVal.str "boom" ∧
    (handleGetResultRequest ([] : Store) "/api/sensemake/result/t2").status = 404 := by
  have h1 := (C7_handleGetResultRequest_spec
    [("t1.json", JVal.obj [("status", JVal.str "failed"), ("error", JVal.str "boom")]
      false false)]
    "/api/sensemake/result/t1" "t1" rfl (by decide)).2.1
    (JVal.obj [("status", JVal.str "failed"), ("error", JVal.str "boom")] false false)
    rfl rfl
  have h2 := (C7_handleGetResultRequest_spec ([] : Store)
    "/api/sensemake/result/t2" "t2" rfl (by decide)).1 rfl
  exact ⟨h1.1, h1.2.trans rfl, h2.1⟩

/--
Claim C9.  The deletion handler answers 404 and deletes nothing when the
result record `<taskId>.json` is absent; when it is present it deletes both
the result record and the status record `<taskId>-status.json` and answers
200; deleting the status record is idempotent because removing an absent
key leaves the store unchanged.
-/
theorem C9_handleDeleteTaskRequest_spec (store : Store) (path taskId : String)
    (hseg : lastPathSegment path = taskId) (hne : taskId ≠ "") :
    (lookupStore store (taskId ++ ".json") = none →
      (handleDeleteTaskRequest store path).1.status = 404 ∧
      (handleDeleteTaskRequest store path).2 = store) ∧
    (∀ doc, lookupStore store (taskId ++ ".json") = some doc →
      (handleDeleteTaskRequest store path).1.status = 200 ∧
      (handleDeleteTaskRequest store path).2 =
        eraseStore (eraseStore store (taskId ++ ".json")) (taskId ++ "-status.json")) ∧
    (lookupStore store (taskId ++ "-status.json") = none →
      eraseStore store (taskId ++ "-status.json") = store) := by
  refine ⟨?_, ?_, ?_⟩
  · intro hnone
    simp only [handleDeleteTaskRequest, hseg, if_neg hne, hnone]
    constructor <;> first | rfl | trivial
  · intro doc hdoc
    simp only [handleDeleteTaskRequest, hseg, if_neg hne, hdoc]
    constructor <;> first | rfl | trivial
  · exact eraseStore_absent store (taskId ++ "-status.json")

/-- Claim C9, witness: deleting an existing result record with no status record present removes exactly it and answers 200; deleting an unknown id answers 404 and keeps the store. -/
theorem C9_witness :
    (handleDeleteTaskRequest
        [("t1.json", JVal.obj [("status", JVal.str "completed")] false false)]
        "/api/sensemake/delete/t1").1.status = 200 ∧
    (handleDeleteTaskRequest
        [("t1.json", JVal.obj [("status", JVal.str "completed")] false false)]
        "/api/sensemake/delete/t1").2 = [] ∧
    (handleDeleteTaskRequest
        [("t1.json", JVal.obj [("status", JVal.str "completed")] false false)]
        "/api/sensemake/delete/t2").1.status = 404 ∧
    (handleDeleteTaskRequest
        [("t1.json", JVal.obj [("status", JVal.str "completed")] false false)]
        "/api/sensemake/delete/t2").2 =
      [("t1.json", JVal.obj [("status", JVal.str "completed")] false false)] := by
  have h1 := (C9_handleDeleteTaskRequest_spec
    [("t1.json", JVal.obj [("status", JVal.str "completed")] false false)]
    "/api/sensemake/delete/t1" "t1" rfl (by decide)).2.1
    (JVal.obj [("status", JVal.str "completed")] false false) rfl
  have h2 := (C9_handleDeleteTaskRequest_spec
    [("t1.json", JVal.obj [("status", JVal.str "completed")] false false)]
    "/api/sensemake/delete/t2" "t2" rfl (by decide)).1 rfl
  exact ⟨h1.1, h1.2.trans rfl, h2.1, h2.2⟩

/-! Claim C10: shape and frame conditions of the two normalization passes. -/

/-- One normalization step changes at most the `voteInfo` field, and a comment without one passes through whole. -/
theorem normalizeCommentVoteInfo_frame (c : Comment) :
    (normalizeCommentVoteInfo c).id = c.id ∧
    (normalizeCommentVoteInfo c).text = c.text ∧
    (normalizeCommentVoteInfo c).topics = c.topics ∧
    (normalizeCommentVoteInfo c).metadata = c.metadata ∧
    (normalizeCommentVoteInfo c).extra = c.extra ∧
    (c.voteInfo = .undef → normalizeCommentVoteInfo c = c) := by
  by_cases h : ¬ c.voteInfo.truthy
  · simp [normalizeCommentVoteInfo, h]
  · have hundef : ¬ c.voteInfo = .undef := by
      intro hu
      exact h (by simp [hu, JVal.truthy])
    cases hv : c.voteInfo <;>
      simp [normalizeCommentVoteInfo, h, hv, hundef] <;>
      split_ifs <;> simp

/-- One queue-normalization step changes at most the `voteInfo` field, and a comment without one passes through whole. -/
theorem normalizeCommentForQueue_frame (c : Comment) :
    (normalizeCommentForQueue c).id = c.id ∧
    (normalizeCommentForQueue c).text = c.text ∧
    (normalizeCommentForQueue c).topics = c.topics ∧
    (normalizeCommentForQueue c).metadata = c.metadata ∧
    (normalizeCommentForQueue c).extra = c.extra ∧
    (c.voteInfo = .undef → normalizeCommentForQueue c = c) := by
  by_cases h : ¬ c.voteInfo.truthy
  · simp [normalizeCommentForQueue, h]
  · have hundef : ¬ c.voteInfo = .undef := by
      intro hu
      exact h (by simp [hu, JVal.truthy])
    cases hv : c.voteInfo <;>
      simp [normalizeCommentForQueue, h, hv, hundef] <;>
      split_ifs <;> simp

/--
Claim C10.  Both normalization passes keep the list length and order, send
the i-th input comment to the i-th output comment, change at most the
`voteInfo` field of any comment — id, text, topics, metadata and the
remaining fields are untouched — and return a comment without a `voteInfo`
field unchanged.  The source builds results by spreading each input comment
into a fresh object, so the embedding (and the original comment list) is
never mutated.
-/
theorem C10_normalizers_frame (cs : List Comment) :
    (normalizeCommentsVoteInfo cs).length = cs.length ∧
    (normalizeCommentsForQueue cs).length = cs.length ∧
    ∀ i c, cs.get? i = some c →
      ∃ c1 c2, (normalizeCommentsVoteInfo cs).get? i = some c1 ∧
        (normalizeCommentsForQueue cs).get? i = some c2 ∧
        c1.id = c.id ∧ c1.text = c.text ∧ c1.topics = c.topics ∧
        c1.metadata = c.metadata ∧ c1.extra = c.extra ∧
        c2.id = c.id ∧ c2.text = c.text ∧ c2.topics = c.topics ∧
        c2.metadata = c.metadata ∧ c2.extra = c.extra ∧
        (c.voteInfo = .undef → c1 = c ∧ c2 = c) := by
  refine ⟨by simp [normalizeCommentsVoteInfo], by simp [normalizeCommentsForQueue], ?_⟩
  intro i c hc
  have h1 : (normalizeCommentsVoteInfo cs).get? i = some (normalizeCommentVoteInfo c) := by
    rw [normalizeCommentsVoteInfo, List.get?_map, hc]
    rfl
  have h2 : (normalizeCommentsForQueue cs).get? i = some (normalizeCommentForQueue c) := by
    rw [normalizeCommentsForQueue, List.get?_map, hc]
    rfl
  obtain ⟨f1, f2, f3, f4, f5, f6⟩ := normalizeCommentVoteInfo_frame c
  obtain ⟨g1, g2, g3, g4, g5, g6⟩ := normalizeCommentForQueue_frame c
  exact ⟨_, _, h1, h2, f1, f2, f3, f4, f5, g1, g2, g3, g4, g5,
    fun hu => ⟨f6 hu, g6 hu⟩⟩

/-- Claim C10, witness: a two-comment list (one without voteInfo, one with a tally) keeps length, order and every non-vote field. -/
theorem C10_witness :
    (normalizeCommentsVoteInfo
        [{ id := "a", text := "ta" },
         { id := "b", text := "tb",
           voteInfo := JVal.obj [("agrees", JVal.num 1)] false false }]).length = 2 ∧
    ∃ c1 c2,
      (normalizeCommentsVoteInfo
        [{ id := "a", text := "ta" },
         { id := "b", text := "tb",
           voteInfo := JVal.obj [("agrees", JVal.num 1)] false false }]).get? 1 = some c1 ∧
      (normalizeCommentsForQueue
        [{ id := "a", text := "ta" },
         { id := "b", text := "tb",
           voteInfo := JVal.obj [("agrees", JVal.num 1)] false false }]).get? 1 = some c2 ∧
      c1.id = "b" ∧ c2.id = "b" ∧ c1.text = "tb" ∧ c2.text = "tb" := by
  have h := C10_normalizers_frame
    [{ id := "a", text := "ta" },
     { id := "b", text := "tb",
       voteInfo := JVal.obj [("agrees", JVal.num 1)] false false }]
  obtain ⟨c1, c2, h1, h2, f1, f2, -, -, -, g1, g2, -⟩ := h.2.2 1
    { id := "b", text := "tb", voteInfo := JVal.obj [("agrees", JVal.num 1)] false false }
    rfl
  exact ⟨h.1, c1, c2, h1, h2, f1, g1, f2, g2⟩

/-! Claim C2: the queue round-trip preserves all counts. -/

/-- The alias chain never produces a nullish value. -/
theorem pickCount_not_nullish (v : JVal) (k1 k2 k3 : String) :
    (pickCount v k1 k2 k3).nullish = false := by
  unfold pickCount jsCoalesce
  by_cases h1 : (v.getProp k1).nullish <;>
    by_cases h2 : (v.getProp k2).nullish <;>
      by_cases h3 : (v.getProp k3).nullish <;>
        simp only [h1, h2, h3, Bool.not_eq_true, if_true, if_false, ite_true, ite_false] <;>
        first
          | rfl
          | simpa using h1
          | simpa using h2
          | simpa using h3

/-- When the first alias is present the chain returns it. -/
theorem pickCount_first (v : JVal) (k1 k2 k3 : String)
    (h : (v.getProp k1).nullish = false) :
    pickCount v k1 k2 k3 = v.getProp k1 := by
  simp [pickCount, jsCoalesce, h]

/-- Properties read from an object whose values are all primitive are never objects. -/
theorem getProp_not_obj (fields : List (String × JVal)) (fn ctor : Bool) (k : String)
    (hall : fields.all (fun p => ! p.2.isObjTypeof) = true) :
    ((JVal.obj fields fn ctor).getProp k).isObjTypeof = false := by
  have hdef : (JVal.obj fields fn ctor).getProp k =
      ((fields.find? (fun p => p.1 == k)).map (fun p => p.2)).getD .undef := rfl
  cases hf : fields.find? (fun p => p.1 == k) with
  | none =>
      rw [hdef, hf]
      rfl
  | some p =>
      rw [hdef, hf]
      have hmem := List.mem_of_find?_eq_some hf
      have hp := List.all_eq_true.mp hall p hmem
      simpa using hp

/-- The alias chain over an all-primitive object never yields an object. -/
theorem pickCount_not_obj (fields : List (String × JVal)) (fn ctor : Bool)
    (k1 k2 k3 : String)
    (hall : fields.all (fun p => ! p.2.isObjTypeof) = true) :
    (pickCount (JVal.obj fields fn ctor) k1 k2 k3).isObjTypeof = false := by
  unfold pickCount jsCoalesce
  by_cases h1 : ((JVal.obj fields fn ctor).getProp k1).nullish <;>
    by_cases h2 : ((JVal.obj fields fn ctor).getProp k2).nullish <;>
      by_cases h3 : ((JVal.obj fields fn ctor).getProp k3).nullish <;>
        simp only [h1, h2, h3, if_true, if_false, ite_true, ite_false] <;>
        first
          | rfl
          | exact getProp_not_obj fields fn ctor k1 hall
          | exact getProp_not_obj fields fn ctor k2 hall
          | exact getProp_not_obj fields fn ctor k3 hall

/-- `toVoteTallyForQueue` on any object flattens it through the alias chains. -/
theorem toVoteTallyForQueue_obj (fields : List (String × JVal)) (fn ctor : Bool) :
    toVoteTallyForQueue (JVal.obj fields fn ctor) =
      mkQueueTally
        (pickCount (JVal.obj fields fn ctor) "agreeCount" "agrees" "agree")
        (pickCount (JVal.obj fields fn ctor) "disagreeCount" "disagrees" "disagree")
        (pickCount (JVal.obj fields fn ctor) "passCount" "passes" "pass") := by
  simp [toVoteTallyForQueue, JVal.truthy]

/-- `toVoteTally` on an object without callable `getTotalCount` builds a `VoteTally` through the alias chains. -/
theorem toVoteTally_plainObj (fields : List (String × JVal)) (ctor : Bool) :
    toVoteTally (JVal.obj fields false ctor) =
      mkVoteTally
        (pickCount (JVal.obj fields false ctor) "agreeCount" "agrees" "agree")
        (pickCount (JVal.obj fields false ctor) "disagreeCount" "disagrees" "disagree")
        (pickCount (JVal.obj fields false ctor) "passCount" "passes" "pass") := by
  simp [toVoteTally, JVal.truthy, JVal.hasGetTotalCountFn]

/-- `toVoteTally` keeps an object that already exposes `getTotalCount`. -/
theorem toVoteTally_fnObj (fields : List (String × JVal)) (ctor : Bool) :
    toVoteTally (JVal.obj fields true ctor) = JVal.obj fields true ctor := by
  simp [toVoteTally, JVal.truthy, JVal.hasGetTotalCountFn]

/-- Normalizing a freshly flattened queue tally rebuilds the `VoteTally` with the same counts. -/
theorem toVoteTally_mkQueueTally (A D P : JVal)
    (hA : A.nullish = false) (hD : D.nullish = false) (hP : P.nullish = false) :
    toVoteTally (mkQueueTally A D P) = mkVoteTally A D P := by
  have h1 : (mkQueueTally A D P).getProp "agreeCount" = A := rfl
  have h2 : (mkQueueTally A D P).getProp "disagreeCount" = D := rfl
  have h3 : (mkQueueTally A D P).getProp "passCount" = P := rfl
  have hq : toVoteTally (mkQueueTally A D P) =
      mkVoteTally
        (pickCount (mkQueueTally A D P) "agreeCount" "agrees" "agree")
        (pickCount (mkQueueTally A D P) "disagreeCount" "disagrees" "disagree")
        (pickCount (mkQueueTally A D P) "passCount" "passes" "pass") :=
    toVoteTally_plainObj _ _
  rw [hq, pickCount_first _ _ _ _ (h1 ▸ hA), pickCount_first _ _ _ _ (h2 ▸ hD),
    pickCount_first _ _ _ _ (h3 ▸ hP), h1, h2, h3]

/-- Round-trip of a single tally value through the queue flattening. -/
theorem tally_member_roundtrip (v : JVal) (h : isTallyObjB v = true) :
    tallyCounts (toVoteTally (toVoteTallyForQueue v)) = tallyCounts (toVoteTally v) := by
  cases v with
  | obj fields fn ctor =>
      have hparts : (fields.all fun p => ! p.2.isObjTypeof) = true ∧
          ((! (fn || ctor)) ||
            (! ((JVal.obj fields fn ctor).getProp "agreeCount").nullish &&
             ! ((JVal.obj fields fn ctor).getProp "disagreeCount").nullish &&
             ! ((JVal.obj fields fn ctor).getProp "passCount").nullish)) = true := by
        simpa [isTallyObjB, Bool.and_eq_true] using h
      obtain ⟨hall, hor⟩ := hparts
      have hq : toVoteTally (toVoteTallyForQueue (JVal.obj fields fn ctor)) =
          mkVoteTally
            (pickCount (JVal.obj fields fn ctor) "agreeCount" "agrees" "agree")
            (pickCount (JVal.obj fields fn ctor) "disagreeCount" "disagrees" "disagree")
            (pickCount (JVal.obj fields fn ctor) "passCount" "passes" "pass") := by
        rw [toVoteTallyForQueue_obj, toVoteTally_mkQueueTally _ _ _
          (pickCount_not_nullish _ _ _ _) (pickCount_not_nullish _ _ _ _)
          (pickCount_not_nullish _ _ _ _)]
      cases fn with
      | false =>
          rw [hq, toVoteTally_plainObj]
      | true =>
          have hcanon : ((JVal.obj fields true ctor).getProp "agreeCount").nullish = false ∧
              ((JVal.obj fields true ctor).getProp "disagreeCount").nullish = false ∧
              ((JVal.obj fields true ctor).getProp "passCount").nullish = false := by
            simpa [and_assoc] using hor
          rw [hq, toVoteTally_fnObj,
            pickCount_first _ _ _ _ hcanon.1,
            pickCount_first _ _ _ _ hcanon.2.1,
            pickCount_first _ _ _ _ hcanon.2.2]
          rfl
  | num n => simp [isTallyObjB] at h
  | str s => simp [isTallyObjB] at h
  | bool b => simp [isTallyObjB] at h
  | null => simp [isTallyObjB] at h
  | undef => simp [isTallyObjB] at h
  | nan => simp [isTallyObjB] at h

/-- Branch structure of one direct normalization step on an object vote value. -/
theorem normVI_of_obj (c : Comment) (fields : List (String × JVal)) (fn ctor : Bool)
    (hv : c.voteInfo = JVal.obj fields fn ctor) :
    normalizeCommentVoteInfo c =
      if fn = true ∨ ctor = true then c
      else if isGroupHeur fields then
        { c with voteInfo := JVal.obj (fields.map (fun p => (p.1, toVoteTally p.2))) false false }
      else { c with voteInfo := toVoteTally (JVal.obj fields fn ctor) } := by
  simp [normalizeCommentVoteInfo, hv, JVal.truthy]

/-- Branch structure of one queue normalization step on an object vote value. -/
theorem normQ_of_obj (c : Comment) (fields : List (String × JVal)) (fn ctor : Bool)
    (hv : c.voteInfo = JVal.obj fields fn ctor) :
    normalizeCommentForQueue c =
      if fn = true ∨ ctor = true then
        { c with voteInfo := toVoteTallyForQueue (JVal.obj fields fn ctor) }
      else if isGroupHeur fields then
        { c with voteInfo :=
            (JVal.obj (fields.map (fun p => (p.1, toVoteTallyForQueue p.2))) false false) }
      else { c with voteInfo := toVoteTallyForQueue (JVal.obj fields fn ctor) } := by
  simp [normalizeCommentForQueue, hv, JVal.truthy]

/-- `toVoteTally` over an explicit canonical count object. -/
theorem toVoteTally_canonObj (a d p : JVal) (ha : a.nullish = false)
    (hd : d.nullish = false) (hp : p.nullish = false) :
    toVoteTally (JVal.obj [("agreeCount", a), ("disagreeCount", d), ("passCount", p)]
        false false) = mkVoteTally a d p :=
  toVoteTally_mkQueueTally a d p ha hd hp

/-- Reading a key from a key-preserving values-mapped object. -/
theorem getProp_obj_map (fields : List (String × JVal)) (g : String × JVal → JVal)
    (b1 b2 : Bool) (k : String) :
    (JVal.obj (fields.map (fun p => (p.1, g p))) b1 b2).getProp k =
      ((fields.find? (fun p => p.1 == k)).map g).getD .undef := by
  have hdef : (JVal.obj (fields.map (fun p => (p.1, g p))) b1 b2).getProp k =
      (((fields.map (fun p => (p.1, g p))).find? (fun p => p.1 == k)).map
        (fun p => p.2)).getD .undef := rfl
  rw [hdef, List.find?_map]
  have hcomp : ((fun p : String × JVal => p.1 == k) ∘ fun p : String × JVal => (p.1, g p)) =
      fun p : String × JVal => p.1 == k := rfl
  rw [hcomp, Option.map_map]
  rfl

/-- Normalizing the queue form of a single tally yields the same counts as normalizing it directly. -/
theorem comment_single_roundtrip (c : Comment) (h : isTallyObjB c.voteInfo = true) :
    tallyCounts (normalizeCommentVoteInfo (normalizeCommentForQueue c)).voteInfo =
      tallyCounts (normalizeCommentVoteInfo c).voteInfo := by
  cases hv : c.voteInfo with
  | obj fields fn ctor =>
      rw [hv] at h
      have hparts : (fields.all fun p => ! p.2.isObjTypeof) = true ∧
          ((! (fn || ctor)) ||
            (! ((JVal.obj fields fn ctor).getProp "agreeCount").nullish &&
             ! ((JVal.obj fields fn ctor).getProp "disagreeCount").nullish &&
             ! ((JVal.obj fields fn ctor).getProp "passCount").nullish)) = true := by
        simpa [isTallyObjB, Bool.and_eq_true] using h
      obtain ⟨hall, hor⟩ := hparts
      by_cases hfc : fn = true ∨ ctor = true
      · -- recognized VoteTally: kept by the direct pass, flattened and rebuilt by the queue pass
        have hfcb : (fn || ctor) = true := by
          rcases hfc with h1 | h1 <;> simp [h1]
        have hcanon : ((JVal.obj fields fn ctor).getProp "agreeCount").nullish = false ∧
            ((JVal.obj fields fn ctor).getProp "disagreeCount").nullish = false ∧
            ((JVal.obj fields fn ctor).getProp "passCount").nullish = false := by
          simpa [hfcb, and_assoc] using hor
        have h1 : normalizeCommentForQueue c =
            { c with voteInfo :=
                (mkQueueTally ((JVal.obj fields fn ctor).getProp "agreeCount")
                  ((JVal.obj fields fn ctor).getProp "disagreeCount")
                  ((JVal.obj fields fn ctor).getProp "passCount")) } := by
          rw [normQ_of_obj c fields fn ctor hv, if_pos hfc, toVoteTallyForQueue_obj,
            pickCount_first _ _ _ _ hcanon.1, pickCount_first _ _ _ _ hcanon.2.1,
            pickCount_first _ _ _ _ hcanon.2.2]
        have h2 : (normalizeCommentVoteInfo
            { c with voteInfo :=
                (mkQueueTally ((JVal.obj fields fn ctor).getProp "agreeCount")
                  ((JVal.obj fields fn ctor).getProp "disagreeCount")
                  ((JVal.obj fields fn ctor).getProp "passCount")) }).voteInfo =
            mkVoteTally ((JVal.obj fields fn ctor).getProp "agreeCount")
              ((JVal.obj fields fn ctor).getProp "disagreeCount")
              ((JVal.obj fields fn ctor).getProp "passCount") := by
          rw [normVI_of_obj _ _ false false rfl,
            if_neg (by simp), if_neg (by
              simp [isGroupHeur, List.all_cons,
                getProp_not_obj fields fn ctor "agreeCount" hall])]
          exact toVoteTally_canonObj _ _ _ hcanon.1 hcanon.2.1 hcanon.2.2
        have h3 : (normalizeCommentVoteInfo c).voteInfo = JVal.obj fields fn ctor := by
          rw [normVI_of_obj c fields fn ctor hv, if_pos hfc]
          exact hv
        rw [h1, h2, h3]
        rfl
      · have hfn : fn = false := by
          cases fn
          · rfl
          · exact absurd (Or.inl rfl) hfc
        have hctor : ctor = false := by
          cases ctor
          · rfl
          · exact absurd (Or.inr rfl) hfc
        subst hfn
        subst hctor
        cases fields with
        | nil =>
            -- the empty object is (vacuously) taken for a group by both passes
            have h1 : normalizeCommentForQueue c =
                { c with voteInfo := JVal.obj [] false false } := by
              rw [normQ_of_obj c [] false false hv]
              rfl
            have h2 : (normalizeCommentVoteInfo
                { c with voteInfo := JVal.obj [] false false }).voteInfo =
                JVal.obj [] false false := by
              rw [normVI_of_obj _ [] false false rfl]
              rfl
            have h3 : (normalizeCommentVoteInfo c).voteInfo = JVal.obj [] false false := by
              rw [normVI_of_obj c [] false false hv]
              rfl
            rw [h1, h2, h3]
        | cons f rest =>
            have hhead : f.2.isObjTypeof = false := by
              have hf := List.all_eq_true.mp hall f (List.mem_cons_self f rest)
              simpa using hf
            have hng : isGroupHeur (f :: rest) = false := by
              simp [isGroupHeur, List.all_cons, hhead]
            have h1 : normalizeCommentForQueue c =
                { c with voteInfo :=
                    (mkQueueTally
                      (pickCount (JVal.obj (f :: rest) false false) "agreeCount" "agrees" "agree")
                      (pickCount (JVal.obj (f :: rest) false false)
                        "disagreeCount" "disagrees" "disagree")
                      (pickCount (JVal.obj (f :: rest) false false)
                        "passCount" "passes" "pass")) } := by
              rw [normQ_of_obj c (f :: rest) false false hv, if_neg hfc,
                if_neg (by simp [hng]), toVoteTallyForQueue_obj]
            have h2 : (normalizeCommentVoteInfo
                { c with voteInfo :=
                    (mkQueueTally
                      (pickCount (JVal.obj (f :: rest) false false) "agreeCount" "agrees" "agree")
                      (pickCount (JVal.obj (f :: rest) false false)
                        "disagreeCount" "disagrees" "disagree")
                      (pickCount (JVal.obj (f :: rest) false false)
                        "passCount" "passes" "pass")) }).voteInfo =
                mkVoteTally
                  (pickCount (JVal.obj (f :: rest) false false) "agreeCount" "agrees" "agree")
                  (pickCount (JVal.obj (f :: rest) false false)
                    "disagreeCount" "disagrees" "disagree")
                  (pickCount (JVal.obj (f :: rest) false false) "passCount" "passes" "pass") := by
              rw [normVI_of_obj _ _ false false rfl,
                if_neg (by simp), if_neg (by
                  simp [isGroupHeur, List.all_cons,
                    pickCount_not_obj (f :: rest) false false "agreeCount" "agrees" "agree" hall])]
              exact toVoteTally_canonObj _ _ _ (pickCount_not_nullish _ _ _ _)
                (pickCount_not_nullish _ _ _ _) (pickCount_not_nullish _ _ _ _)
            have h3 : (normalizeCommentVoteInfo c).voteInfo =
                mkVoteTally
                  (pickCount (JVal.obj (f :: rest) false false) "agreeCount" "agrees" "agree")
                  (pickCount (JVal.obj (f :: rest) false false)
                    "disagreeCount" "disagrees" "disagree")
                  (pickCount (JVal.obj (f :: rest) false false) "passCount" "passes" "pass") := by
              rw [normVI_of_obj c (f :: rest) false false hv, if_neg hfc,
                if_neg (by simp [hng])]
              exact congrArg Comment.voteInfo
                (congrArg (fun v => { c with voteInfo := v }) (toVoteTally_plainObj _ _))
            rw [h1, h2, h3]
  | num n =>
      rw [hv] at h
      simp [isTallyObjB] at h
  | str s =>
      rw [hv] at h
      simp [isTallyObjB] at h
  | bool b =>
      rw [hv] at h
      simp [isTallyObjB] at h
  | null =>
      rw [hv] at h
      simp [isTallyObjB] at h
  | undef =>
      rw [hv] at h
      simp [isTallyObjB] at h
  | nan =>
      rw [hv] at h
      simp [isTallyObjB] at h

/-- Normalizing the queue form of a grouped tally keeps the group keys and every group's counts. -/
theorem comment_grouped_roundtrip (c : Comment) (h : isGroupedTalliesB c.voteInfo = true) :
    objKeys (normalizeCommentVoteInfo (normalizeCommentForQueue c)).voteInfo =
      objKeys (normalizeCommentVoteInfo c).voteInfo ∧
    ∀ k, tallyCounts
        ((normalizeCommentVoteInfo (normalizeCommentForQueue c)).voteInfo.getProp k) =
      tallyCounts ((normalizeCommentVoteInfo c).voteInfo.getProp k) := by
  cases hv : c.voteInfo with
  | obj fields fn ctor =>
      rw [hv] at h
      have hparts : fn = false ∧ ctor = false ∧
          fields.all (fun p => isTallyObjB p.2) = true := by
        simpa [isGroupedTalliesB, Bool.and_eq_true, and_assoc] using h
      obtain ⟨hfn, hctor, hmem⟩ := hparts
      subst hfn
      subst hctor
      have hfc : ¬ (false = true ∨ false = true) := by simp
      have hGH : isGroupHeur fields = true := by
        rw [isGroupHeur, List.all_eq_true]
        intro p hp
        have hto := List.all_eq_true.mp hmem p hp
        cases hp2 : p.2 <;> rw [hp2] at hto <;> simp [isTallyObjB] at hto <;>
          simp [JVal.isObjTypeof]
      have hGH2 : isGroupHeur (fields.map (fun p => (p.1, toVoteTallyForQueue p.2))) = true := by
        rw [isGroupHeur, List.all_eq_true]
        intro q hq
        obtain ⟨p, hp, rfl⟩ := List.mem_map.mp hq
        have hto := List.all_eq_true.mp hmem p hp
        cases hp2 : p.2 <;> rw [hp2] at hto <;> simp [isTallyObjB] at hto <;>
          simp [toVoteTallyForQueue_obj, mkQueueTally, JVal.isObjTypeof]
      have h1 : normalizeCommentForQueue c =
          { c with voteInfo :=
              (JVal.obj (fields.map (fun p => (p.1, toVoteTallyForQueue p.2))) false false) } := by
        rw [normQ_of_obj c fields false false hv, if_neg hfc, if_pos hGH]
      have h2 : (normalizeCommentVoteInfo
          { c with voteInfo :=
              (JVal.obj (fields.map (fun p => (p.1, toVoteTallyForQueue p.2))) false false)
              }).voteInfo =
          JVal.obj (fields.map (fun p => (p.1, toVoteTally (toVoteTallyForQueue p.2))))
            false false := by
        rw [normVI_of_obj _ _ false false rfl, if_neg hfc, if_pos hGH2]
        simp [List.map_map, Function.comp]
      have h3 : (normalizeCommentVoteInfo c).voteInfo =
          JVal.obj (fields.map (fun p => (p.1, toVoteTally p.2))) false false := by
        rw [normVI_of_obj c fields false false hv, if_neg hfc, if_pos hGH]
      rw [h1, h2, h3]
      constructor
      · simp [objKeys]
      · intro k
        rw [getProp_obj_map, getProp_obj_map]
        cases hf : fields.find? (fun p => p.1 == k) with
        | none => rfl
        | some p =>
            simp only [Option.map_some', Option.getD_some]
            exact tally_member_roundtrip p.2
              (List.all_eq_true.mp hmem p (List.mem_of_find?_eq_some hf))
  | num n =>
      rw [hv] at h
      simp [isGroupedTalliesB] at h
  | str s =>
      rw [hv] at h
      simp [isGroupedTalliesB] at h
  | bool b =>
      rw [hv] at h
      simp [isGroupedTalliesB] at h
  | null =>
      rw [hv] at h
      simp [isGroupedTalliesB] at h
  | undef =>
      rw [hv] at h
      simp [isGroupedTalliesB] at h
  | nan =>
      rw [hv] at h
      simp [isGroupedTalliesB] at h

/--
Claim C2.  For every comment in a list whose `voteInfo` is a tally object
or a grouped mapping of tallies, normalizing through the queue form
(`normalizeCommentsForQueue` then `normalizeCommentsVoteInfo`) yields the
same agree, disagree and pass counts as normalizing the original list
directly with `normalizeCommentsVoteInfo` — for a grouped mapping the group
keys coincide and the counts agree under every group key.
-/
theorem C2_queue_roundtrip_counts (cs : List Comment) (i : Nat) (c : Comment)
    (hc : cs.get? i = some c) :
    (isTallyObjB c.voteInfo = true →
      tallyCounts (viAt (normalizeCommentsVoteInfo (normalizeCommentsForQueue cs)) i) =
        tallyCounts (viAt (normalizeCommentsVoteInfo cs) i)) ∧
    (isGroupedTalliesB c.voteInfo = true →
      objKeys (viAt (normalizeCommentsVoteInfo (normalizeCommentsForQueue cs)) i) =
        objKeys (viAt (normalizeCommentsVoteInfo cs) i) ∧
      ∀ k, tallyCounts
          ((viAt (normalizeCommentsVoteInfo (normalizeCommentsForQueue cs)) i).getProp k) =
        tallyCounts ((viAt (normalizeCommentsVoteInfo cs) i).getProp k)) := by
  have hc2 : cs[i]? = some c := by
    simpa [List.get?_eq_getElem?] using hc
  have hL : viAt (normalizeCommentsVoteInfo (normalizeCommentsForQueue cs)) i =
      (normalizeCommentVoteInfo (normalizeCommentForQueue c)).voteInfo := by
    simp [viAt, normalizeCommentsVoteInfo, normalizeCommentsForQueue, List.get?_map, hc2]
  have hR : viAt (normalizeCommentsVoteInfo cs) i =
      (normalizeCommentVoteInfo c).voteInfo := by
    simp [viAt, normalizeCommentsVoteInfo, List.get?_map, hc2]
  rw [hL, hR]
  exact ⟨fun h => comment_single_roundtrip c h, fun h => comment_grouped_roundtrip c h⟩

/-- Claim C2, witness: a simple aliased tally and a one-group mapping survive the queue round-trip with counts 5/2/0 and 1/0/0. -/
theorem C2_witness :
    (tallyCounts (viAt (normalizeCommentsVoteInfo (normalizeCommentsForQueue
        [⟨"x", "t", .undef, none,
          JVal.obj [("agrees", JVal.num 5), ("disagrees", JVal.num 2)] false false, []⟩])) 0) =
      tallyCounts (viAt (normalizeCommentsVoteInfo
        [⟨"x", "t", .undef, none,
          JVal.obj [("agrees", JVal.num 5), ("disagrees", JVal.num 2)] false false, []⟩]) 0) ∧
    tallyCounts (viAt (normalizeCommentsVoteInfo
        [⟨"x", "t", .undef, none,
          JVal.obj [("agrees", JVal.num 5), ("disagrees", JVal.num 2)] false false, []⟩]) 0) =
      (JVal.num 5, JVal.num 2, JVal.num 0)) ∧
    (tallyCounts ((viAt (normalizeCommentsVoteInfo (normalizeCommentsForQueue
        [⟨"y", "u", .undef, none,
          JVal.obj [("groupA", JVal.obj [("agrees", JVal.num 1)] false false)] false false,
          []⟩])) 0).getProp "groupA") =
      tallyCounts ((viAt (normalizeCommentsVoteInfo
        [⟨"y", "u", .undef, none,
          JVal.obj [("groupA", JVal.obj [("agrees", JVal.num 1)] false false)] false false,
          []⟩]) 0).getProp "groupA") ∧
    tallyCounts ((viAt (normalizeCommentsVoteInfo
        [⟨"y", "u", .undef, none,
          JVal.obj [("groupA", JVal.obj [("agrees", JVal.num 1)] false false)] false false,
          []⟩]) 0).getProp "groupA") =
      (JVal.num 1, JVal.num 0, JVal.num 0)) := by
  have hsimple := (C2_queue_roundtrip_counts
    [⟨"x", "t", .undef, none,
      JVal.obj [("agrees", JVal.num 5), ("disagrees", JVal.num 2)] false false, []⟩] 0
    ⟨"x", "t", .undef, none,
      JVal.obj [("agrees", JVal.num 5), ("disagrees", JVal.num 2)] false false, []⟩ rfl).1 rfl
  have hgrouped := ((C2_queue_roundtrip_counts
    [⟨"y", "u", .undef, none,
      JVal.obj [("groupA", JVal.obj [("agrees", JVal.num 1)] false false)] false false, []⟩] 0
    ⟨"y", "u", .undef, none,
      JVal.obj [("groupA", JVal.obj [("agrees", JVal.num 1)] false false)] false false,
      []⟩ rfl).2 rfl).2 "groupA"
  exact ⟨⟨hsimple, rfl⟩, hgrouped, rfl⟩

/-! Claim C8: consumer failure handling. -/

/--
Claim C8, counterexample.  An analysis-engine exception carrying the empty
message produces a failed result record whose `error` field is the empty
string: the record is written and the message is retried, but the error
field is not non-empty as the claim demands.  The trace below is the full
consumer behaviour for that message.
-/
theorem C8_counterexample :
    consumeMessage ⟨"t1", [], "m", none, "en"⟩ (.failure (.errMsg "")) {} "T" =
      [.putOk "t1-status.json" (statusDoc "t1" "processing" 1 "T"),
       .putOk "t1.json" (failedResultDoc "t1" (.errMsg "") "T"),
       .putOk "t1-status.json" (statusDoc "t1" "failed" 1 "T"),
       .retry] ∧
    (failedResultDoc "t1" (.errMsg "") "T").getProp "status" = JVal.str "failed" ∧
    (failedResultDoc "t1" (.errMsg "") "T").getProp "error" = JVal.str "" :=
  ⟨rfl, rfl, rfl⟩

/--
Claim C8, amended.  For every queue message whose processing throws: the
consumer marks the message for retry and never acknowledges it, and
(best-effort) writes a result record with status `failed` whose `error`
field is the exception's message — or `Unknown error` for a non-`Error`
value — hence non-empty whenever the message is; if that write itself
fails, only the failed write attempt is observed and the message is still
retried.  On success with a healthy store, the consumer acknowledges only
after the completed result record has been written (the acknowledgement is
the last event, strictly after the write).
-/
theorem C8_consumeMessage_spec (task : SensemakeTask) (engine : EngineOutcome)
    (sb : StorageBehavior) (now : String) :
    (∀ t, engine = .failure t →
      QEvent.retry ∈ consumeMessage task engine sb now ∧
      (∀ e, e ∈ consumeMessage task engine sb now → e ≠ .ack) ∧
      (sb.failedPutOk = true →
        QEvent.putOk (task.taskId ++ ".json") (failedResultDoc task.taskId t now) ∈
          consumeMessage task engine sb now ∧
        (failedResultDoc task.taskId t now).getProp "status" = JVal.str "failed" ∧
        (failedResultDoc task.taskId t now).getProp "error" = JVal.str (thrownText t) ∧
        (∀ m, t = .errMsg m → m ≠ "" → thrownText t ≠ "")) ∧
      (sb.failedPutOk = false →
        QEvent.putErr (task.taskId ++ ".json") ∈ consumeMessage task engine sb now)) ∧
    (∀ s, engine = .success s → sb.completedPutOk = true →
      consumeMessage task engine sb now =
        updateTaskStatusEvents task.taskId "processing" 1 now sb.statusPutOk ++
          [QEvent.putOk (task.taskId ++ ".json")
            (completedResultDoc
              { task with comments := normalizeCommentsVoteInfo task.comments } s now),
           QEvent.ack]) := by
  constructor
  · intro t ht
    subst ht
    refine ⟨?_, ?_, ?_, ?_⟩
    · by_cases hs : sb.statusPutOk <;> by_cases hf : sb.failedPutOk <;>
        simp [consumeMessage, processSensemakeTask, updateTaskStatusEvents, hs, hf]
    · intro e he
      by_cases hs : sb.statusPutOk <;> by_cases hf : sb.failedPutOk <;>
        simp [consumeMessage, processSensemakeTask, updateTaskStatusEvents, hs, hf] at he <;>
        rcases he with h | h | h | h <;> subst h <;> simp
    · intro hf
      refine ⟨?_, rfl, rfl, ?_⟩
      · by_cases hs : sb.statusPutOk <;>
          simp [consumeMessage, processSensemakeTask, updateTaskStatusEvents, hs, hf]
      · intro m hm hne
        subst hm
        simpa [thrownText] using hne
    · intro hf
      by_cases hs : sb.statusPutOk <;>
        simp [consumeMessage, processSensemakeTask, updateTaskStatusEvents, hs, hf]
  · intro s hs hput
    subst hs
    simp [consumeMessage, processSensemakeTask, hput]

/-- Claim C8, witness: a failing engine with message `boom` writes the failed record with that error and retries without acknowledging; a succeeding engine writes the completed record and then acknowledges. -/
theorem C8_witness :
    (QEvent.retry ∈ consumeMessage ⟨"t2", [], "m", none, "en"⟩
        (.failure (.errMsg "boom")) {} "T" ∧
      QEvent.putOk "t2.json" (failedResultDoc "t2" (.errMsg "boom") "T") ∈
        consumeMessage ⟨"t2", [], "m", none, "en"⟩ (.failure (.errMsg "boom")) {} "T" ∧
      (failedResultDoc "t2" (.errMsg "boom") "T").getProp "error" = JVal.str "boom" ∧
      (∀ e, e ∈ consumeMessage ⟨"t2", [], "m", none, "en"⟩
        (.failure (.errMsg "boom")) {} "T" → e ≠ .ack)) ∧
    consumeMessage ⟨"t2", [], "m", none, "en"⟩ (.success "sum") {} "T" =
      [.putOk "t2-status.json" (statusDoc "t2" "processing" 1 "T"),
       .putOk "t2.json" (completedResultDoc ⟨"t2", [], "m", none, "en"⟩ "sum" "T"),
       .ack] := by
  have hfail := (C8_consumeMessage_spec ⟨"t2", [], "m", none, "en"⟩
    (.failure (.errMsg "boom")) {} "T").1 (.errMsg "boom") rfl
  have hsucc := (C8_consumeMessage_spec ⟨"t2", [], "m", none, "en"⟩
    (.success "sum") {} "T").2 "sum" rfl rfl
  refine ⟨⟨hfail.1, (hfail.2.2.1 rfl).1, (hfail.2.2.1 rfl).2.2.1, hfail.2.1⟩, ?_⟩
  rw [hsucc]
  rfl

end Sensemaker